import Mathlib

/-!
Verification development for the grpccontroller repository: a shallow
embedding, in Lean 4, of the identity/control-plane core (token store,
certificate issuance, enrollment service, SPIFFE interceptor, presence
registries, renewal scheduler), together with theorems settling the
specification claims.

Strings from the Go source are modelled as lists of characters so that
the splitting/trimming done by the code (`strings.Split`,
`strings.TrimPrefix`, `net/url` parsing of SPIFFE URIs) can be reasoned
about by structural induction.  Go `time.Time` / `time.Duration` are
modelled as integers (nanoseconds); the Go zero `time.Time` is the
integer 0.  External cryptographic library calls (PKIX public-key
parsing, DER certificate signing, SHA-256) are abstracted: a public key
on the wire is represented by the result of parsing it, the hash
function is a parameter, and `x509.CreateCertificate` followed by
`ParseCertificate` is modelled as preserving the template fields it
faithfully encodes.
-/

namespace GrpcController


/-- Strings are modelled as lists of characters. -/
abbrev Str := List Char

/-- Coercion from Lean string literals into the model's strings. -/
def str (s : String) : Str := s.toList

/-- Go `time.Time`, as nanoseconds; the Go zero time is `0`. -/
abbrev Time := Int

/-- Go `time.Duration`, in nanoseconds. -/
abbrev Duration := Int

/-- Go `time.Second` in nanoseconds. -/
def second : Duration := 1000000000

/-- Go `time.Minute` in nanoseconds. -/
def minute : Duration := 60 * second

/-- Go `time.Hour` in nanoseconds. -/
def hour : Duration := 60 * minute

/-- Go `t.IsZero()` for our integer model of `time.Time`. -/
def timeIsZero (t : Time) : Bool := t == 0

/-- Splits a character list at the first occurrence of `c`: returns the
part strictly before and the part strictly after, or `none` when `c`
does not occur. -/
def splitFirst (c : Char) : Str → Option (Str × Str)
  | [] => none
  | x :: xs =>
      if x = c then some ([], xs)
      else (splitFirst c xs).map (fun p => (x :: p.1, p.2))

/-- Go `strings.Split(s, sep)` for a one-character separator.  On the
empty string it returns `[[]]`, exactly as Go returns `[""]`. -/
def splitOnChar (c : Char) : Str → List Str
  | [] => [[]]
  | x :: xs =>
      let r := splitOnChar c xs
      if x = c then [] :: r
      else
        match r with
        | [] => [[x]]
        | y :: ys => (x :: y) :: ys

/-- Go `strings.TrimPrefix(s, pre)`: drops `pre` from the front of `s`
when it is a prefix, otherwise returns `s` unchanged. -/
def trimPre (pre s : Str) : Str :=
  if pre.isPrefixOf s then s.drop pre.length else s

/-- Go `strings.Contains(s, "/")` specialised to one-character needles. -/
def containsChar (c : Char) (s : Str) : Bool := s.contains c

/-- Model of Go `net/url.URL`, restricted to the fields the repository
reads on SPIFFE URIs: `Scheme`, `Host`, `Path`. -/
structure URL where
  scheme : Str
  host : Str
  path : Str
deriving DecidableEq, Repr

/-- Model of Go `url.Parse` on the URI shapes the repository handles: a
scheme before the first colon, then `//`, then a host up to the next
slash, then the path.  Inputs without a colon parse, as in Go, with an
empty scheme (which every caller then rejects by the scheme check);
inputs with a scheme but no `//` keep the remainder outside host/path
(Go stores it in `Opaque`, which no caller reads). -/
def urlParse (s : Str) : URL :=
  match splitFirst ':' s with
  | none => ⟨[], [], s⟩
  | some (sch, rest) =>
      match rest with
      | '/' :: '/' :: tail =>
          match splitFirst '/' tail with
          | none => ⟨sch, tail, []⟩
          | some (h, p) => ⟨sch, h, '/' :: p⟩
      | _ => ⟨sch, [], []⟩

/-- Go `url.URL.String()` for the scheme/host/path URLs above. -/
def URL.render (u : URL) : Str := u.scheme ++ str "://" ++ u.host ++ u.path

/-- Model of `net.IP` as the list of address bytes. -/
abbrev IPAddr := List Nat

/-- Abstract workload public key (the result of PKIX parsing). -/
structure PubKey where
  raw : Nat
deriving DecidableEq, Repr

namespace ca

/-- Extended key usages that appear in the leaf template. -/
inductive ExtKeyUsage where
  | clientAuth
  | serverAuth
deriving DecidableEq, Repr

/-- Model of the X.509 certificate fields set by the issuance template
in `controller/ca/issue.go` and read back by the repository
(`x509.CreateCertificate` encodes exactly these template fields, and
`x509.ParseCertificate` recovers them). -/
structure Cert where
  serialNumber : Int
  notBefore : Time
  notAfter : Time
  keyUsageDigitalSignature : Bool
  keyUsageCertSign : Bool
  extKeyUsage : List ExtKeyUsage
  basicConstraintsValid : Bool
  isCA : Bool
  uris : List URL
  dnsNames : List Str
  ipAddresses : List IPAddr
  publicKey : PubKey
deriving DecidableEq, Repr

/-- Model of a PEM block (`encoding/pem`), holding a parsed certificate
in place of DER bytes. -/
structure PEMBlock where
  type : Str
  cert : Cert
deriving DecidableEq, Repr

/-- Errors returned by the CA issuance path. -/
inductive IssueError where
  | caNotInitialized
  | invalidTTL
  | badScheme
deriving DecidableEq, Repr

/-- IssueWorkloadCert from
`backend/working-backend/controller/ca/issue.go`: checks the CA is
initialized and `ttl > 0`, parses the SPIFFE URI and requires scheme
`spiffe`, then signs a leaf with the template of that file.  The random
serial and the issuance instant are passed in as parameters `serial`
and `now`. -/
def IssueWorkloadCert (caOk : Bool) (spiffeID : Str) (pubKey : PubKey)
    (ttl : Duration) (dnsNames : List Str) (ipAddrs : List IPAddr)
    (now : Time) (serial : Int) : Except IssueError PEMBlock :=
  if ¬ caOk then .error .caNotInitialized
  else if ttl ≤ 0 then .error .invalidTTL
  else
    let uri := urlParse spiffeID
    if uri.scheme ≠ str "spiffe" then .error .badScheme
    else
      .ok { type := str "CERTIFICATE"
          , cert :=
            { serialNumber := serial
            , notBefore := now - minute
            , notAfter := now + ttl
            , keyUsageDigitalSignature := true
            , keyUsageCertSign := false
            , extKeyUsage := [.clientAuth, .serverAuth]
            , basicConstraintsValid := true
            , isCA := false
            , uris := [uri]
            , dnsNames := dnsNames
            , ipAddresses := ipAddrs
            , publicKey := pubKey } }

end ca

/-- The SPIFFE URI string built by the enrollment handlers:
`fmt.Sprintf("spiffe://%s/%s/%s", trustDomain, role, id)`. -/
def mkSpiffeID (trustDomain role id : Str) : Str :=
  str "spiffe://" ++ trustDomain ++ str "/" ++ role ++ str "/" ++ id

namespace State

/-- TokenRecord from
`backend/working-backend/controller/state/token_store.go` (the same
shape is used by the in-memory variant in `backend/controller`). -/
structure TokenRecord where
  hash : Str
  expiresAt : Time
  used : Bool
  connectorID : Str
deriving DecidableEq, Repr

/-- The token map `map[string]*TokenRecord`, as an association list
keyed by the hex hash. -/
abbrev TokenMap := List (Str × TokenRecord)

/-- Map lookup, `rec, ok := s.tokens[hash]`. -/
def lookupTok (m : TokenMap) (k : Str) : Option TokenRecord :=
  match m.find? (fun p => p.1 = k) with
  | none => none
  | some p => some p.2

/-- Map write, `s.tokens[hash] = rec` (replaces an existing binding,
otherwise appends). -/
def insertTok (m : TokenMap) (k : Str) (v : TokenRecord) : TokenMap :=
  if m.any (fun p => p.1 = k) then m.map (fun p => if p.1 = k then (k, v) else p)
  else m ++ [(k, v)]

/-- TokenStore from
`backend/working-backend/controller/state/token_store.go`; the
persistence path is abstracted away (`saveLocked` rewrites the same map
to disk and is modelled as succeeding). -/
structure TokenStore where
  tokens : TokenMap
  ttl : Duration
deriving DecidableEq, Repr

/-- Errors returned by the token store operations, one constructor per
`errors.New` message in the two store variants. -/
inductive TokenError where
  | missingToken
  | missingConnectorID
  | invalidToken
  | tokenExpired
  | alreadyUsed
deriving DecidableEq, Repr

/-- CreateToken from the working-backend store: a fresh random token
(its hex encoding is the parameter `token`, the hash function the
parameter `hashToken`, abstracting `crypto/rand` and SHA-256); expiry
is `now + ttl` for a positive store TTL and ten 365-day years out
otherwise; the record starts unconsumed. -/
def CreateToken (hashToken : Str → Str) (now : Time) (token : Str)
    (s : TokenStore) : Str × Time × TokenStore :=
  let hash := hashToken token
  let expires := if s.ttl > 0 then now + s.ttl else now + 10 * 365 * 24 * hour
  let newRec : TokenRecord :=
    { hash := hash, expiresAt := expires, used := false, connectorID := [] }
  (token, expires, { s with tokens := insertTok s.tokens hash newRec })

/-- ConsumeToken from the working-backend store
(`backend/working-backend/controller/state/token_store.go` lines
66–86): rejects an empty token or id, a missing record, and an expired
record (a zero `ExpiresAt` never expires); it then binds the record to
`connectorID` and saves.  Note that, as in the source, the `Used` flag
is neither checked nor set. -/
def ConsumeToken (hashToken : Str → Str) (now : Time) (s : TokenStore)
    (token connectorID : Str) : Except TokenError TokenStore :=
  if token = [] then .error .missingToken
  else if connectorID = [] then .error .missingConnectorID
  else
    let hash := hashToken token
    match lookupTok s.tokens hash with
    | none => .error .invalidToken
    | some r =>
        if timeIsZero r.expiresAt = false ∧ r.expiresAt < now then .error .tokenExpired
        else .ok { s with tokens := insertTok s.tokens hash { r with connectorID := connectorID } }

/-- ConnectorRecord from
`backend/working-backend/controller/state/registry.go`. -/
structure ConnectorRecord where
  id : Str
  privateIP : Str
  version : Str
  lastSeen : Time
deriving DecidableEq, Repr

/-- The connector registry map, as a list of records keyed by `id`. -/
abbrev Registry := List ConnectorRecord

/-- Register from `registry.go`: upserts the record for `id` and sets
all three mutable fields, stamping `lastSeen` with the current time. -/
def Register (now : Time) (r : Registry) (id privateIP version : Str) : Registry :=
  if r.any (fun c => c.id = id) then
    r.map (fun c => if c.id = id then
      { c with privateIP := privateIP, version := version, lastSeen := now } else c)
  else r ++ [{ id := id, privateIP := privateIP, version := version, lastSeen := now }]

/-- RecordHeartbeat from `registry.go` (lines 40–52): upserts the
record for `id`, overwrites `privateIP` only when the heartbeat carries
a non-empty one, and stamps `lastSeen`. -/
def RecordHeartbeat (now : Time) (r : Registry) (id privateIP : Str) : Registry :=
  if r.any (fun c => c.id = id) then
    r.map (fun c => if c.id = id then
      { c with privateIP := if privateIP ≠ [] then privateIP else c.privateIP
             , lastSeen := now } else c)
  else
    r ++ [{ id := id
          , privateIP := if privateIP ≠ [] then privateIP else []
          , version := []
          , lastSeen := now }]

/-- Get from `registry.go`: returns a copy of the record for `id`. -/
def Get (r : Registry) (id : Str) : Option ConnectorRecord :=
  r.find? (fun c => c.id = id)

/-- One step of the `sort.Slice` ordering used by `List()`: insert a
record in front of the first strictly older one (`LastSeen.After`). -/
def insertDesc (c : ConnectorRecord) : List ConnectorRecord → List ConnectorRecord
  | [] => [c]
  | x :: xs => if x.lastSeen < c.lastSeen then c :: x :: xs else x :: insertDesc c xs

/-- List from `registry.go`: defensive copies of every record, sorted
by `lastSeen` descending. -/
def listRecords (r : Registry) : List ConnectorRecord :=
  r.foldr insertDesc []

/-- TunnelerRecord from
`backend/working-backend/controller/state/tunneler_status.go`. -/
structure TunnelerRecord where
  id : Str
  spiffeID : Str
  connectorID : Str
  lastSeen : Time
deriving DecidableEq, Repr

/-- The tunneler status registry map, as a list of records keyed by `id`. -/
abbrev TunnelerStatusRegistry := List TunnelerRecord

/-- Record from `tunneler_status.go`: ignores an empty id, upserts the
record, overwrites `spiffeID`/`connectorID` only when non-empty, and
stamps `lastSeen`. -/
def RecordTunneler (now : Time) (r : TunnelerStatusRegistry)
    (id spiffeID connectorID : Str) : TunnelerStatusRegistry :=
  if id = [] then r
  else if r.any (fun c => c.id = id) then
    r.map (fun c => if c.id = id then
      { c with spiffeID := if spiffeID ≠ [] then spiffeID else c.spiffeID
             , connectorID := if connectorID ≠ [] then connectorID else c.connectorID
             , lastSeen := now } else c)
  else
    r ++ [{ id := id
          , spiffeID := if spiffeID ≠ [] then spiffeID else []
          , connectorID := if connectorID ≠ [] then connectorID else []
          , lastSeen := now }]

/-- Insertion step for sorting tunneler records by `lastSeen` descending. -/
def insertDescTun (c : TunnelerRecord) : List TunnelerRecord → List TunnelerRecord
  | [] => [c]
  | x :: xs => if x.lastSeen < c.lastSeen then c :: x :: xs else x :: insertDescTun c xs

/-- List from `tunneler_status.go`: copies sorted by `lastSeen` descending. -/
def listTunnelers (r : TunnelerStatusRegistry) : List TunnelerRecord :=
  r.foldr insertDescTun []

end State

namespace MemState

/-- ConsumeToken of the in-memory store variant
(`backend/controller` tree, package `state`): unlike the
working-backend variant, it enforces single use — an expired record is
rejected without a zero-time escape, an already-used record is rejected,
and a successful consumption marks the record used and binds it. -/
def ConsumeToken (hashToken : Str → Str) (now : Time) (s : State.TokenStore)
    (token connectorID : Str) : Except State.TokenError State.TokenStore :=
  if token = [] then .error .missingToken
  else if connectorID = [] then .error .missingConnectorID
  else
    let hash := hashToken token
    match State.lookupTok s.tokens hash with
    | none => .error .invalidToken
    | some r =>
        if r.expiresAt < now then .error .tokenExpired
        else if r.used then .error .alreadyUsed
        else
          let newRec := { r with used := true, connectorID := connectorID }
          .ok { s with tokens := State.insertTok s.tokens hash newRec }

/-- CreateToken of the in-memory store variant: expiry is always
`now + ttl`, with no branch on the sign of the TTL. -/
def CreateToken (hashToken : Str → Str) (now : Time) (token : Str)
    (s : State.TokenStore) : Str × Time × State.TokenStore :=
  let hash := hashToken token
  let expires := now + s.ttl
  let newRec : State.TokenRecord :=
    { hash := hash, expiresAt := expires, used := false, connectorID := [] }
  (token, expires, { s with tokens := State.insertTok s.tokens hash newRec })

end MemState

namespace api

/-- gRPC status codes used by the enrollment service. -/
inductive Code where
  | invalidArgument
  | unauthenticated
  | permissionDenied
  | failedPrecondition
  | internalError
deriving DecidableEq, Repr

/-- A gRPC status error: code plus (static part of the) message. -/
structure GrpcError where
  code : Code
  msg : Str
deriving DecidableEq, Repr

/-- validID from `backend/working-backend/controller/api/enroll.go`:
character-set test for one rune.  Comparisons are on code points,
matching the Go rune comparisons. -/
def validIDChar (c : Char) : Bool :=
  (97 ≤ c.toNat && c.toNat ≤ 122) ||
  (65 ≤ c.toNat && c.toNat ≤ 90) ||
  (48 ≤ c.toNat && c.toNat ≤ 57) ||
  c == '-' || c == '_' || c == '.'

/-- validID from `enroll.go`: non-empty, at most 128 characters, every
rune in `[A-Za-z0-9._-]`.  (Go measures the bound in bytes; on the
ASCII-only alphabet the rune check enforces, the two lengths agree, and
any string whose byte and rune lengths differ is rejected by both.) -/
def validID (id : Str) : Bool :=
  !(id = [] || 128 < id.length) && id.all validIDChar

/-- parsePublicKey from `enroll.go`.  The PEM/PKIX wire bytes are
abstracted by their parse result: `none` stands for bytes that are
empty, fail PEM decoding, or fail `x509.ParsePKIXPublicKey`. -/
def parsePublicKey (pemBytes : Option PubKey) : Except Str PubKey :=
  match pemBytes with
  | none => .error (str "failed to decode PEM block")
  | some pk => .ok pk

/-- Model of `credentials.TLSInfo.State`: the peer certificate chain. -/
structure TLSState where
  peerCertificates : List ca.Cert
deriving DecidableEq, Repr

/-- Model of `peer.Peer`: `tlsInfo` is `none` when `AuthInfo` is not a
`credentials.TLSInfo` (a non-TLS connection). -/
structure Peer where
  tlsInfo : Option TLSState
deriving DecidableEq, Repr

/-- makeRoleSet from `interceptor.go` (related file of `enroll.go`):
the nil map for an empty argument list, otherwise the set of the
non-empty role strings.  Modelled as a deduplication-free list, which
the interceptor only tests for emptiness and membership. -/
def makeRoleSet (roles : List Str) : List Str :=
  if roles = [] then [] else roles.filter (fun r => r ≠ [])

/-- extractAndVerifySPIFFE (interceptor file, lines 473–523 of the
combined `enroll.go` source): requires peer info, a TLS connection, a
non-empty peer chain, exactly one URI SAN on the leaf, scheme `spiffe`,
host equal to the trust domain, a path of exactly two `/`-separated
segments after trimming one leading slash, and — only when the
configured role set is non-empty — a role inside it.  Returns the
rendered URI and the role. -/
def extractAndVerifySPIFFE (p : Option Peer) (trustDomain : Str)
    (allowedRoles : List Str) : Except Str (Str × Str) :=
  match p with
  | none => .error (str "missing peer information")
  | some peer =>
      match peer.tlsInfo with
      | none => .error (str "connection is not using TLS")
      | some tlsState =>
          match tlsState.peerCertificates with
          | [] => .error (str "no peer certificates presented")
          | cert :: _ =>
              match cert.uris with
              | [uri] =>
                  if uri.scheme ≠ str "spiffe" then
                    .error (str "SPIFFE ID must use spiffe:// scheme")
                  else if uri.host ≠ trustDomain then
                    .error (str "SPIFFE trust domain mismatch")
                  else
                    let path := trimPre (str "/") uri.path
                    let parts := splitOnChar '/' path
                    if parts.length ≠ 2 then .error (str "invalid SPIFFE path format")
                    else
                      let role := parts.headI
                      if allowedRoles ≠ [] ∧ role ∉ allowedRoles then
                        .error (str "invalid SPIFFE role")
                      else .ok (uri.render, role)
              | _ => .error (str "exactly one SPIFFE ID is required")

/-- UnarySPIFFEInterceptor: on extraction failure the RPC errors and
the handler never runs; on success the SPIFFE ID and role are published
into the context and the handler runs with them. -/
def UnarySPIFFEInterceptor {α : Type} (trustDomain : Str) (allowedRoles : List Str)
    (p : Option Peer) (handler : Str → Str → α) : Except Str α :=
  match extractAndVerifySPIFFE p trustDomain (makeRoleSet allowedRoles) with
  | .error e => .error e
  | .ok (spiffeID, role) => .ok (handler spiffeID role)

/-- The request context as seen by `Renew`: the SPIFFE ID and role
values published by the interceptor, `none` when absent. -/
structure Ctx where
  spiffeID : Option Str
  role : Option Str
deriving DecidableEq, Repr

/-- EnrollRequest (`controllerpb`): `publicKey` carries the wire bytes
abstracted by their PKIX parse result. -/
structure EnrollRequest where
  id : Str
  publicKey : Option PubKey
  token : Str
  privateIp : Str
  version : Str
deriving DecidableEq, Repr

/-- EnrollResponse (`controllerpb`). -/
structure EnrollResponse where
  certificate : ca.PEMBlock
  caCertificate : Str
deriving DecidableEq, Repr

/-- EnrollmentServer state from `enroll.go`: `caOk` is whether the CA
is initialized; `tokens` and `registry` are `none` when the
corresponding pointer is nil. -/
structure EnrollmentServer where
  caOk : Bool
  caPEM : Str
  trustDomain : Str
  tokens : Option State.TokenStore
  registry : Option State.Registry
deriving DecidableEq, Repr

/-- identityFromContext from `enroll.go` (lines 261–278): requires the
SPIFFE ID and role from the context, strips the
`spiffe://<td>/<role>/` front and rejects an empty or slash-containing
remainder. -/
def identityFromContext (trustDomain : Str) (ctx : Ctx) :
    Except GrpcError (Str × Str) :=
  match ctx.spiffeID with
  | none => .error ⟨.unauthenticated, str "missing SPIFFE identity"⟩
  | some spiffeID =>
      match ctx.role with
      | none => .error ⟨.unauthenticated, str "missing SPIFFE role"⟩
      | some role =>
          let id := trimPre
            (str "spiffe://" ++ trustDomain ++ str "/" ++ role ++ str "/") spiffeID
          if id = [] ∨ containsChar '/' id then
            .error ⟨.unauthenticated, str "invalid SPIFFE id"⟩
          else .ok (role, id)

/-- authorizeConnectorToken from `enroll.go`: `FailedPrecondition` when
the token service is nil, `PermissionDenied` on any consumption error,
otherwise the mutated store. -/
def authorizeConnectorToken (hashToken : Str → Str) (now : Time)
    (s : EnrollmentServer) (token connectorID : Str) :
    Except GrpcError State.TokenStore :=
  match s.tokens with
  | none => .error ⟨.failedPrecondition, str "token service unavailable"⟩
  | some ts =>
      match State.ConsumeToken hashToken now ts token connectorID with
      | .error _ => .error ⟨.permissionDenied, str "invalid enrollment token"⟩
      | .ok ts2 => .ok ts2

/-- EnrollConnector from `enroll.go` (lines 56–114): validates id,
non-empty private ip and version, parses the public key, consumes the
token against the id, then issues a 5-minute leaf for
`spiffe://<td>/connector/<id>` with the parsed private ip as sole IP
SAN (omitted when `net.ParseIP` fails), registers the connector, and
returns the leaf plus the CA PEM.  `parseIP` abstracts `net.ParseIP`;
`now`/`serial` abstract the clock and serial randomness. -/
def EnrollConnector (hashToken : Str → Str) (parseIP : Str → Option IPAddr)
    (now : Time) (serial : Int) (s : EnrollmentServer) (req : EnrollRequest) :
    Except GrpcError (EnrollResponse × EnrollmentServer) :=
  if validID req.id = false then .error ⟨.invalidArgument, str "missing connector id"⟩
  else if req.privateIp = [] then .error ⟨.invalidArgument, str "missing private ip"⟩
  else if req.version = [] then .error ⟨.invalidArgument, str "missing version"⟩
  else
    match parsePublicKey req.publicKey with
    | .error _ => .error ⟨.invalidArgument, str "invalid public key"⟩
    | .ok pubKey =>
        match authorizeConnectorToken hashToken now s req.token req.id with
        | .error e => .error e
        | .ok ts2 =>
            let spiffeID := mkSpiffeID s.trustDomain (str "connector") req.id
            let ipAddrs :=
              match parseIP req.privateIp with
              | some ip => [ip]
              | none => []
            match ca.IssueWorkloadCert s.caOk spiffeID pubKey (5 * minute)
                [] ipAddrs now serial with
            | .error _ => .error ⟨.internalError, str "certificate issuance failed"⟩
            | .ok certPEM =>
                let reg2 :=
                  match s.registry with
                  | some reg => some (State.Register now reg req.id req.privateIp req.version)
                  | none => none
                .ok ({ certificate := certPEM, caCertificate := s.caPEM },
                     { s with tokens := some ts2, registry := reg2 })

/-- EnrollTunneler from `enroll.go`: validates id and non-empty token,
parses the public key, consumes the token, and issues a 30-minute leaf
for `spiffe://<td>/tunneler/<id>` with no DNS or IP SANs; the allowlist
notification is a side effect outside this state. -/
def EnrollTunneler (hashToken : Str → Str) (now : Time) (serial : Int)
    (s : EnrollmentServer) (req : EnrollRequest) :
    Except GrpcError (EnrollResponse × EnrollmentServer) :=
  if validID req.id = false then .error ⟨.invalidArgument, str "missing tunneler id"⟩
  else if req.token = [] then .error ⟨.invalidArgument, str "missing enrollment token"⟩
  else
    match parsePublicKey req.publicKey with
    | .error _ => .error ⟨.invalidArgument, str "invalid public key"⟩
    | .ok pubKey =>
        match authorizeConnectorToken hashToken now s req.token req.id with
        | .error e => .error e
        | .ok ts2 =>
            let spiffeID := mkSpiffeID s.trustDomain (str "tunneler") req.id
            match ca.IssueWorkloadCert s.caOk spiffeID pubKey (30 * minute)
                [] [] now serial with
            | .error _ => .error ⟨.internalError, str "certificate issuance failed"⟩
            | .ok certPEM =>
                .ok ({ certificate := certPEM, caCertificate := s.caPEM },
                     { s with tokens := some ts2 })

/-- Renew from `enroll.go` (lines 168–216): validates the request id,
parses the public key, extracts role and id from the authenticated
context, rejects an id mismatch with `PermissionDenied`, and re-issues
for `spiffe://<td>/<role>/<id>` with a role-dependent TTL (5 minutes
for connectors, otherwise 30) and, for connectors, the registered
private ip as IP SAN when it parses. -/
def Renew (parseIP : Str → Option IPAddr) (now : Time) (serial : Int)
    (s : EnrollmentServer) (ctx : Ctx) (req : EnrollRequest) :
    Except GrpcError EnrollResponse :=
  if validID req.id = false then .error ⟨.invalidArgument, str "missing id"⟩
  else
    match parsePublicKey req.publicKey with
    | .error _ => .error ⟨.invalidArgument, str "invalid public key"⟩
    | .ok pubKey =>
        match identityFromContext s.trustDomain ctx with
        | .error e => .error e
        | .ok (role, id) =>
            if id ≠ req.id then .error ⟨.permissionDenied, str "id mismatch for renewal"⟩
            else
              let spiffeID := mkSpiffeID s.trustDomain role req.id
              let ttl := if role = str "connector" then 5 * minute else 30 * minute
              let ipAddrs :=
                if role = str "connector" then
                  match s.registry with
                  | some reg =>
                      match State.Get reg req.id with
                      | some r =>
                          match parseIP r.privateIP with
                          | some ip => [ip]
                          | none => []
                      | none => []
                  | none => []
                else []
              match ca.IssueWorkloadCert s.caOk spiffeID pubKey ttl [] ipAddrs now serial with
              | .error _ => .error ⟨.internalError, str "certificate renewal failed"⟩
              | .ok certPEM => .ok { certificate := certPEM, caCertificate := s.caPEM }

end api

namespace admin

/-- One row of `GET /api/admin/connectors`. -/
structure RespConnector where
  id : Str
  status : Str
  privateIP : Str
  lastSeen : Str
  version : Str
deriving DecidableEq, Repr

/-- One row of `GET /api/admin/tunnelers`. -/
structure RespTunneler where
  id : Str
  status : Str
  connectorID : Str
  lastSeen : Str
deriving DecidableEq, Repr

/-- Decimal rendering of a natural number, for the humanized strings. -/
def natToStr (n : Nat) : Str := (toString n).toList

/-- humanizeDuration from the admin server: clamps negatives to zero
and renders a coarse relative time.  `int(d.Seconds())` is modelled as
exact integer division by one second. -/
def humanizeDuration (d : Duration) : Str :=
  let d := if d < 0 then 0 else d
  let seconds := (d / second).toNat
  if seconds < 5 then str "just now"
  else if seconds < 60 then natToStr seconds ++ str " seconds ago"
  else if seconds < 3600 then natToStr (seconds / 60) ++ str " minutes ago"
  else if seconds < 86400 then natToStr (seconds / 3600) ++ str " hours ago"
  else natToStr (seconds / 86400) ++ str " days ago"

/-- handleListConnectors (admin server, related file of `issue.go`,
lines 193–222): takes a registry snapshot and renders every record,
marking it ONLINE exactly when `now − lastSeen < 30s`. -/
def handleListConnectors (now : Time) (reg : State.Registry) : List RespConnector :=
  (State.listRecords reg).map (fun r =>
    { id := r.id
    , status := if now - r.lastSeen < 30 * second then str "ONLINE" else str "OFFLINE"
    , privateIP := r.privateIP
    , lastSeen := humanizeDuration (now - r.lastSeen)
    , version := r.version })

/-- handleListTunnelers (lines 224–255): same classification over the
tunneler registry; a nil registry renders an empty list. -/
def handleListTunnelers (now : Time) (reg : Option State.TunnelerStatusRegistry) :
    List RespTunneler :=
  match reg with
  | none => []
  | some r =>
      (State.listTunnelers r).map (fun t =>
        { id := t.id
        , status := if now - t.lastSeen < 30 * second then str "ONLINE" else str "OFFLINE"
        , connectorID := t.connectorID
        , lastSeen := humanizeDuration (now - t.lastSeen) })

end admin

namespace ConnRun

/-- nextRenewal from the connector run loop in `src/unnamed/part_012`
(lines 498–512): `now + 10s` once the certificate has expired,
otherwise `notAfter − 30% · totalTTL` floored at `now + 10s`, where a
non-positive `totalTTL` falls back to the remaining lifetime.  All
divisions act on positive values, where Go and Lean division agree. -/
def nextRenewal (now notAfter : Time) (totalTTL : Duration) : Time :=
  let remaining := notAfter - now
  if remaining ≤ 0 then now + 10 * second
  else
    let totalTTL := if totalTTL ≤ 0 then remaining else totalTTL
    let renewAt := totalTTL * 30 / 100
    let next := notAfter - renewAt
    if next < now + 10 * second then now + 10 * second else next

end ConnRun

namespace WBRun

/-- nextRenewal from
`backend/working-backend/connector/run/run.go` (lines 438–452):
`now + 10s` once expired, otherwise `notAfter − advance` floored at
`now + 30s`, with `advance = max(remaining/3, 5min)`. -/
def nextRenewal (now notAfter : Time) : Time :=
  let ttl := notAfter - now
  if ttl ≤ 0 then now + 10 * second
  else
    let advance := ttl / 3
    let advance := if advance < 5 * minute then 5 * minute else advance
    let next := notAfter - advance
    if next < now + 30 * second then now + 30 * second else next

end WBRun

/-- Success test for `Except`, used to state that an operation does not
fail. -/
def isOk {ε α : Type} : Except ε α → Bool
  | .ok _ => true
  | .error _ => false

/-- parseLeafCert from the connector run loop: requires a PEM block of
type `CERTIFICATE` and parses the certificate. -/
def parseLeafCert (p : ca.PEMBlock) : Except Str ca.Cert :=
  if p.type ≠ str "CERTIFICATE" then .error (str "invalid certificate PEM")
  else .ok p.cert

/-- Concrete stand-in for the SHA-256 hex hash in evaluations (the
store logic is parametric in the hash function). -/
def idHash : Str → Str := fun t => t

/-- Store holding one fresh token `"tok"` with a 600 s TTL, created at
time 0: the state after `CreateToken` on an empty working-backend
store. -/
def wbStore1 : State.TokenStore :=
  (State.CreateToken idHash 0 (str "tok") ⟨[], 600 * second⟩).2.2

/-- Leaf certificate whose SPIFFE URI path is `/connector/` — a
well-formed trust domain and role followed by an EMPTY id segment. -/
def emptyIdLeaf : ca.Cert :=
  { serialNumber := 0
  , notBefore := 0
  , notAfter := 0
  , keyUsageDigitalSignature := true
  , keyUsageCertSign := false
  , extKeyUsage := [.clientAuth, .serverAuth]
  , basicConstraintsValid := true
  , isCA := false
  , uris := [⟨str "spiffe", str "td", str "/connector/"⟩]
  , dnsNames := []
  , ipAddresses := []
  , publicKey := ⟨0⟩ }

/-- Leaf certificate with the fully well-formed SPIFFE URI
`spiffe://td/connector/c1`. -/
def goodLeaf : ca.Cert :=
  { serialNumber := 0
  , notBefore := 0
  , notAfter := 0
  , keyUsageDigitalSignature := true
  , keyUsageCertSign := false
  , extKeyUsage := [.clientAuth, .serverAuth]
  , basicConstraintsValid := true
  , isCA := false
  , uris := [⟨str "spiffe", str "td", str "/connector/c1"⟩]
  , dnsNames := []
  , ipAddresses := []
  , publicKey := ⟨0⟩ }

theorem splitFirst_not_mem {c : Char} {s : Str} (h : c ∉ s) :
    splitFirst c s = none := by
  induction s with
  | nil => rfl
  | cons x xs ih =>
      simp only [List.mem_cons, not_or] at h
      simp [splitFirst, Ne.symm h.1, ih h.2]

theorem splitFirst_append {c : Char} {pre suf : Str} (h : c ∉ pre) :
    splitFirst c (pre ++ c :: suf) = some (pre, suf) := by
  induction pre with
  | nil => simp [splitFirst]
  | cons x xs ih =>
      simp only [List.mem_cons, not_or] at h
      simp [splitFirst, Ne.symm h.1, ih h.2]

theorem splitOnChar_not_mem {c : Char} {s : Str} (h : c ∉ s) :
    splitOnChar c s = [s] := by
  induction s with
  | nil => rfl
  | cons x xs ih =>
      simp only [List.mem_cons, not_or] at h
      simp [splitOnChar, Ne.symm h.1, ih h.2]

theorem splitOnChar_append {c : Char} {pre suf : Str} (h : c ∉ pre) :
    splitOnChar c (pre ++ c :: suf) = pre :: splitOnChar c suf := by
  induction pre with
  | nil => simp [splitOnChar]
  | cons x xs ih =>
      simp only [List.mem_cons, not_or] at h
      have hne : ¬ x = c := Ne.symm h.1
      have hr := ih h.2
      simp only [List.cons_append, splitOnChar, if_neg hne, List.append_eq, hr]

theorem trimPre_append (pre rest : Str) : trimPre pre (pre ++ rest) = rest := by
  unfold trimPre
  rw [if_pos]
  · simp
  · exact List.isPrefixOf_iff_prefix.mpr ⟨rest, rfl⟩

theorem urlParse_mkSpiffeID {td : Str} (role id : Str) (htd : '/' ∉ td) :
    urlParse (mkSpiffeID td role id) =
      ⟨str "spiffe", td, str "/" ++ role ++ str "/" ++ id⟩ := by
  have h1 : mkSpiffeID td role id =
      str "spiffe" ++ ':' :: ('/' :: '/' :: (td ++ '/' :: (role ++ '/' :: id))) := by
    simp [mkSpiffeID, str]
  have h2 : (':' : Char) ∉ str "spiffe" := by decide
  have h3 := @splitFirst_append ':' (str "spiffe")
      ('/' :: '/' :: (td ++ '/' :: (role ++ '/' :: id))) h2
  have h4 := @splitFirst_append '/' td (role ++ '/' :: id) htd
  rw [h1]
  unfold urlParse
  rw [h3]
  simp [h4, str]

theorem lookupTok_insertTok (m : State.TokenMap) (k : Str) (v : State.TokenRecord) :
    State.lookupTok (State.insertTok m k v) k = some v := by
  unfold State.insertTok
  by_cases h : (m.any fun p => decide (p.1 = k)) = true
  · rw [if_pos h]
    induction m with
    | nil => simp at h
    | cons p ps ih =>
        by_cases hp : p.1 = k
        · simp [State.lookupTok, hp]
        · simp only [List.any_cons, Bool.or_eq_true, decide_eq_true_eq] at h
          rcases h with h | h
          · exact absurd h hp
          · have := ih h
            simpa [State.lookupTok, hp] using this
  · rw [if_neg h]
    rw [Bool.not_eq_true, List.any_eq_false] at h
    induction m with
    | nil => simp [State.lookupTok]
    | cons p ps ih =>
        have hp : ¬ p.1 = k := by
          have := h p (by simp)
          simpa using this
        have hps : ∀ q ∈ ps, ¬ (decide (q.1 = k)) = true := fun q hq => h q (by simp [hq])
        have := ih hps
        simpa [State.lookupTok, hp] using this

theorem validID_no_slash {id : Str} (h : api.validID id = true) : '/' ∉ id := by
  intro hmem
  unfold api.validID at h
  simp only [Bool.and_eq_true, List.all_eq_true] at h
  have := h.2 _ hmem
  simp [api.validIDChar] at this

theorem segments_two {role id : Str} (hrole : '/' ∉ role) (hid : '/' ∉ id) :
    splitOnChar '/' (trimPre (str "/") (str "/" ++ role ++ str "/" ++ id)) =
      [role, id] := by
  have h1 : str "/" ++ role ++ str "/" ++ id = str "/" ++ (role ++ '/' :: id) := by
    simp [str]
  rw [h1]
  rw [show (str "/" : Str) = ['/'] from rfl]
  rw [trimPre_append]
  rw [splitOnChar_append hrole, splitOnChar_not_mem hid]

theorem IssueWorkloadCert_mkSpiffeID {td : Str} (role id : Str) (pk : PubKey)
    (ttl : Duration) (dns : List Str) (ips : List IPAddr) (now : Time) (serial : Int)
    (htd : '/' ∉ td) (httl : 0 < ttl) :
    ca.IssueWorkloadCert true (mkSpiffeID td role id) pk ttl dns ips now serial =
      .ok { type := str "CERTIFICATE"
          , cert :=
            { serialNumber := serial
            , notBefore := now - minute
            , notAfter := now + ttl
            , keyUsageDigitalSignature := true
            , keyUsageCertSign := false
            , extKeyUsage := [.clientAuth, .serverAuth]
            , basicConstraintsValid := true
            , isCA := false
            , uris := [⟨str "spiffe", td, str "/" ++ role ++ str "/" ++ id⟩]
            , dnsNames := dns
            , ipAddresses := ips
            , publicKey := pk } } := by
  unfold ca.IssueWorkloadCert
  rw [urlParse_mkSpiffeID role id htd]
  simp [not_le.mpr httl]

/-- C10: token-store expiry policy.  (1) With a positive store TTL,
`CreateToken` sets the expiry to creation time plus the TTL.  (2) With
a non-positive TTL it sets the expiry ten 365-day years past creation.
(3) `ConsumeToken` never reports expiry for a record whose `ExpiresAt`
is the zero time.  (4) Hence a token minted by a non-positive-TTL store
is consumable at any instant up to ten years after creation. -/
theorem tokenStore_expiry_policy :
    (∀ (hashToken : Str → Str) (now : Time) (token : Str) (s : State.TokenStore),
        0 < s.ttl → (State.CreateToken hashToken now token s).2.1 = now + s.ttl) ∧
    (∀ (hashToken : Str → Str) (now : Time) (token : Str) (s : State.TokenStore),
        s.ttl ≤ 0 →
        (State.CreateToken hashToken now token s).2.1 = now + 10 * 365 * 24 * hour) ∧
    (∀ (hashToken : Str → Str) (now : Time) (s : State.TokenStore)
        (token cid : Str) (r : State.TokenRecord),
        token ≠ [] → cid ≠ [] →
        State.lookupTok s.tokens (hashToken token) = some r →
        timeIsZero r.expiresAt = true →
        isOk (State.ConsumeToken hashToken now s token cid) = true) ∧
    (∀ (hashToken : Str → Str) (now nowC : Time) (token cid : Str)
        (s : State.TokenStore),
        s.ttl ≤ 0 → token ≠ [] → cid ≠ [] → nowC ≤ now + 10 * 365 * 24 * hour →
        isOk (State.ConsumeToken hashToken nowC
          (State.CreateToken hashToken now token s).2.2 token cid) = true) := by
  refine ⟨?_, ?_, ?_, ?_⟩
  · intro hashToken now token s h
    simp [State.CreateToken, h]
  · intro hashToken now token s h
    simp [State.CreateToken, not_lt.mpr h]
  · intro hashToken now s token cid r htok hcid hlook hzero
    simp only [State.ConsumeToken, if_neg htok, if_neg hcid, hlook]
    have hfalse : ¬ (timeIsZero r.expiresAt = false ∧ r.expiresAt < now) := by
      rintro ⟨h1, -⟩
      rw [hzero] at h1
      simp at h1
    simp [hfalse, isOk]
  · intro hashToken now nowC token cid s httl htok hcid hle
    have hexp : (State.CreateToken hashToken now token s).2.2.tokens =
        State.insertTok s.tokens (hashToken token)
          ⟨hashToken token, now + 10 * 365 * 24 * hour, false, []⟩ := by
      simp [State.CreateToken, not_lt.mpr httl]
    simp only [State.ConsumeToken, if_neg htok, if_neg hcid, hexp,
      lookupTok_insertTok]
    have hfalse : ¬ (timeIsZero (now + 87600 * hour) = false ∧
        (now + 87600 * hour : Int) < nowC) := by
      rintro ⟨-, h2⟩
      have heq : (87600 : Int) * hour = 10 * 365 * 24 * hour := by norm_num
      rw [heq] at h2
      exact absurd hle (not_le.mpr h2)
    simp [hfalse, isOk]

/-- Witness for `tokenStore_expiry_policy` at concrete inputs: a 600 s
store stamps `0 + 600 s`; a zero-TTL store stamps ten years; a record
with zero expiry consumes fine; a token from a zero-TTL store consumes
fine one year later. -/
theorem tokenStore_expiry_policy_witness :
    (State.CreateToken idHash 0 (str "tok") ⟨[], 600 * second⟩).2.1 =
      0 + 600 * second ∧
    (State.CreateToken idHash 0 (str "tok") ⟨[], 0⟩).2.1 =
      0 + 10 * 365 * 24 * hour ∧
    isOk (State.ConsumeToken idHash 999 ⟨[(str "t", ⟨str "t", 0, false, []⟩)], 0⟩
      (str "t") (str "c1")) = true ∧
    isOk (State.ConsumeToken idHash (365 * 24 * hour)
      (State.CreateToken idHash 0 (str "tok") ⟨[], 0⟩).2.2
      (str "tok") (str "c1")) = true := by
  refine ⟨?_, ?_, ?_, ?_⟩
  · exact tokenStore_expiry_policy.1 idHash 0 (str "tok") ⟨[], 600 * second⟩ (by decide)
  · exact tokenStore_expiry_policy.2.1 idHash 0 (str "tok") ⟨[], 0⟩ (by decide)
  · exact tokenStore_expiry_policy.2.2.1 idHash 999 ⟨[(str "t", ⟨str "t", 0, false, []⟩)], 0⟩
      (str "t") (str "c1") ⟨str "t", 0, false, []⟩ (by decide) (by decide) (by decide)
      (by decide)
  · exact tokenStore_expiry_policy.2.2.2 idHash 0 (365 * 24 * hour) (str "tok")
      (str "c1") ⟨[], 0⟩ (by decide) (by decide) (by decide) (by decide)

/-- C1: the working-backend token store is NOT single-use.  Evaluated
at the failing input (store TTL 600 s, token `"tok"`): the first
consumption binds the record to `"c1"`, yet a second consumption for
`"c2"` also succeeds and rebinds the record (the `Used` flag is never
consulted), and at the RPC layer a second `EnrollConnector` with the
same token also succeeds.  The in-memory variant in
`backend/controller` does implement the claimed behavior, rejecting the
second consumption with `token already used` and keeping the binding. -/
theorem tokenStore_singleUse_code_bug :
    State.ConsumeToken idHash (1 * second) wbStore1 (str "tok") (str "c1") =
      .ok ⟨[(str "tok", ⟨str "tok", 600 * second, false, str "c1"⟩)], 600 * second⟩ ∧
    State.ConsumeToken idHash (2 * second)
        ⟨[(str "tok", ⟨str "tok", 600 * second, false, str "c1"⟩)], 600 * second⟩
        (str "tok") (str "c2") =
      .ok ⟨[(str "tok", ⟨str "tok", 600 * second, false, str "c2"⟩)], 600 * second⟩ ∧
    isOk (api.EnrollConnector idHash (fun _ => none) (2 * second) 7
        { caOk := true, caPEM := str "CA", trustDomain := str "td"
        , tokens := some ⟨[(str "tok", ⟨str "tok", 600 * second, false, str "c1"⟩)],
            600 * second⟩
        , registry := some [] }
        { id := str "c2", publicKey := some ⟨0⟩, token := str "tok"
        , privateIp := str "10.0.0.9", version := str "1.0" }) = true ∧
    MemState.ConsumeToken idHash (1 * second) wbStore1 (str "tok") (str "c1") =
      .ok ⟨[(str "tok", ⟨str "tok", 600 * second, true, str "c1"⟩)], 600 * second⟩ ∧
    MemState.ConsumeToken idHash (2 * second)
        ⟨[(str "tok", ⟨str "tok", 600 * second, true, str "c1"⟩)], 600 * second⟩
        (str "tok") (str "c2") = .error .alreadyUsed := by
  refine ⟨by rfl, by rfl, by decide, by rfl, by rfl⟩

/-- C5 counterexample: the working-backend connector scheduler does not
follow `max(now + 10s, not_after − 0.30 · total_ttl)`.  At `now = 0`
with a certificate valid to 300 s (total TTL 360 s, the 5-minute
connector certificate issued with a one-minute back-dated NotBefore)
the formula gives 192 s, but the code floors at 30 s because its
advance is `max(remaining/3, 5min)`. -/
theorem nextRenewal_formula_counterexample :
    WBRun.nextRenewal 0 (300 * second) ≠
      max (0 + 10 * second) (300 * second - 360 * second * 30 / 100) := by decide

/-- C5 amended: the connector scheduler of `src/unnamed/part_012`
returns exactly `max(now + 10s, not_after − (30 · total_ttl)/100)` for
every positive total TTL, and `now + 10s` whenever `not_after = now`
(so does the working-backend scheduler); the working-backend connector
scheduler instead returns
`max(now + 30s, not_after − max(remaining/3, 5min))` while the
certificate is unexpired. -/
theorem nextRenewal_schedule :
    (∀ (now notAfter : Time) (totalTTL : Duration), 0 < totalTTL →
        ConnRun.nextRenewal now notAfter totalTTL =
          max (now + 10 * second) (notAfter - totalTTL * 30 / 100)) ∧
    (∀ (now : Time) (totalTTL : Duration),
        ConnRun.nextRenewal now now totalTTL = now + 10 * second) ∧
    (∀ now : Time, WBRun.nextRenewal now now = now + 10 * second) ∧
    (∀ now notAfter : Time, now < notAfter →
        WBRun.nextRenewal now notAfter =
          max (now + 30 * second)
            (notAfter - max ((notAfter - now) / 3) (5 * minute))) := by
  have hsec : (0 : Int) < second := by norm_num [second]
  refine ⟨?_, ?_, ?_, ?_⟩
  · intro now notAfter totalTTL httl
    simp only [ConnRun.nextRenewal]
    by_cases hrem : notAfter - now ≤ 0
    · rw [if_pos hrem]
      have hdiv : 0 ≤ totalTTL * 30 / 100 :=
        Int.ediv_nonneg (by nlinarith) (by norm_num)
      have : notAfter - totalTTL * 30 / 100 ≤ now + 10 * second := by
        nlinarith
      rw [max_eq_left this]
    · rw [if_neg hrem]
      rw [if_neg (not_le.mpr httl)]
      rcases lt_or_le (notAfter - totalTTL * 30 / 100) (now + 10 * second) with h | h
      · rw [if_pos h, max_eq_left (le_of_lt h)]
      · rw [if_neg (not_lt.mpr h), max_eq_right h]
  · intro now totalTTL
    simp only [ConnRun.nextRenewal]
    rw [if_pos (le_of_eq (sub_self now))]
  · intro now
    simp only [WBRun.nextRenewal]
    rw [if_pos (le_of_eq (sub_self now))]
  · intro now notAfter hlt
    simp only [WBRun.nextRenewal]
    rw [if_neg (not_le.mpr (sub_pos.mpr hlt))]
    by_cases hadv : (notAfter - now) / 3 < 5 * minute
    · rw [if_pos hadv]
      rw [max_eq_right (le_of_lt hadv)]
      rcases lt_or_le (notAfter - 5 * minute) (now + 30 * second) with h | h
      · rw [if_pos h, max_eq_left (le_of_lt h)]
      · rw [if_neg (not_lt.mpr h), max_eq_right h]
    · rw [if_neg hadv]
      rw [max_eq_left (not_lt.mp hadv)]
      rcases lt_or_le (notAfter - (notAfter - now) / 3) (now + 30 * second) with h | h
      · rw [if_pos h, max_eq_left (le_of_lt h)]
      · rw [if_neg (not_lt.mpr h), max_eq_right h]

/-- Witness for `nextRenewal_schedule`: a 360 s-TTL certificate
expiring at 300 s schedules at 192 s under the part_012 scheduler, and
at 30 s under the working-backend one; both return 10 s at expiry. -/
theorem nextRenewal_schedule_witness :
    ConnRun.nextRenewal 0 (300 * second) (360 * second) =
      max (0 + 10 * second) (300 * second - 360 * second * 30 / 100) ∧
    ConnRun.nextRenewal 0 0 (360 * second) = 0 + 10 * second ∧
    WBRun.nextRenewal 0 0 = 0 + 10 * second ∧
    WBRun.nextRenewal 0 (300 * second) =
      max ((0 : Int) + 30 * second)
        (300 * second - max ((300 * second - 0) / 3) (5 * minute)) := by
  refine ⟨?_, ?_, ?_, ?_⟩
  · exact nextRenewal_schedule.1 0 (300 * second) (360 * second) (by norm_num [second])
  · exact nextRenewal_schedule.2.1 0 (360 * second)
  · exact nextRenewal_schedule.2.2.1 0
  · exact nextRenewal_schedule.2.2.2 0 (300 * second) (by norm_num [second])

theorem mem_insertDesc {c x : State.ConnectorRecord}
    {l : List State.ConnectorRecord} :
    x ∈ State.insertDesc c l ↔ x = c ∨ x ∈ l := by
  induction l with
  | nil => simp [State.insertDesc]
  | cons y ys ih =>
      unfold State.insertDesc
      by_cases h : y.lastSeen < c.lastSeen
      · simp [h]
      · simp [h, ih]
        tauto

theorem length_insertDesc (c : State.ConnectorRecord)
    (l : List State.ConnectorRecord) :
    (State.insertDesc c l).length = l.length + 1 := by
  induction l with
  | nil => rfl
  | cons y ys ih =>
      unfold State.insertDesc
      by_cases h : y.lastSeen < c.lastSeen
      · simp [h]
      · simp [h, ih]

theorem mem_listRecords {l : List State.ConnectorRecord}
    {x : State.ConnectorRecord} :
    x ∈ State.listRecords l ↔ x ∈ l := by
  induction l with
  | nil => simp [State.listRecords]
  | cons y ys ih =>
      unfold State.listRecords at *
      simp only [List.foldr_cons]
      rw [mem_insertDesc]
      simp [ih]

theorem length_listRecords (l : List State.ConnectorRecord) :
    (State.listRecords l).length = l.length := by
  induction l with
  | nil => rfl
  | cons y ys ih =>
      unfold State.listRecords at *
      simp only [List.foldr_cons]
      rw [length_insertDesc]
      simp [ih]

theorem mem_insertDescTun {c x : State.TunnelerRecord}
    {l : List State.TunnelerRecord} :
    x ∈ State.insertDescTun c l ↔ x = c ∨ x ∈ l := by
  induction l with
  | nil => simp [State.insertDescTun]
  | cons y ys ih =>
      unfold State.insertDescTun
      by_cases h : y.lastSeen < c.lastSeen
      · simp [h]
      · simp [h, ih]
        tauto

theorem length_insertDescTun (c : State.TunnelerRecord)
    (l : List State.TunnelerRecord) :
    (State.insertDescTun c l).length = l.length + 1 := by
  induction l with
  | nil => rfl
  | cons y ys ih =>
      unfold State.insertDescTun
      by_cases h : y.lastSeen < c.lastSeen
      · simp [h]
      · simp [h, ih]

theorem mem_listTunnelers {l : List State.TunnelerRecord}
    {x : State.TunnelerRecord} :
    x ∈ State.listTunnelers l ↔ x ∈ l := by
  induction l with
  | nil => simp [State.listTunnelers]
  | cons y ys ih =>
      unfold State.listTunnelers at *
      simp only [List.foldr_cons]
      rw [mem_insertDescTun]
      simp [ih]

theorem length_listTunnelers (l : List State.TunnelerRecord) :
    (State.listTunnelers l).length = l.length := by
  induction l with
  | nil => rfl
  | cons y ys ih =>
      unfold State.listTunnelers at *
      simp only [List.foldr_cons]
      rw [length_insertDescTun]
      simp [ih]

theorem status_string_iff (c : Prop) [Decidable c] :
    ((if c then str "ONLINE" else str "OFFLINE") = str "ONLINE" ↔ c) ∧
    ((if c then str "ONLINE" else str "OFFLINE") = str "OFFLINE" ↔ ¬ c) := by
  by_cases h : c
  · rw [if_pos h]
    exact ⟨iff_of_true rfl h, iff_of_false (by decide) (not_not_intro h)⟩
  · rw [if_neg h]
    exact ⟨iff_of_false (by decide) h, iff_of_true rfl h⟩

/-- C7: the admin listing marks a record ONLINE exactly when
`now − last_seen < 30 s` (OFFLINE otherwise), keeps the record's stored
fields, and drops no record (the rendered list has the registry's
length), for connectors and for tunnelers alike. -/
theorem adminListing_online_threshold :
    (∀ (now : Time) (reg : State.Registry) (r : State.ConnectorRecord),
        r ∈ reg →
        ∃ e ∈ admin.handleListConnectors now reg,
          e.id = r.id ∧ e.privateIP = r.privateIP ∧ e.version = r.version ∧
          (e.status = str "ONLINE" ↔ now - r.lastSeen < 30 * second) ∧
          (e.status = str "OFFLINE" ↔ ¬ now - r.lastSeen < 30 * second)) ∧
    (∀ (now : Time) (reg : State.Registry),
        (admin.handleListConnectors now reg).length = reg.length) ∧
    (∀ (now : Time) (reg : State.TunnelerStatusRegistry)
        (t : State.TunnelerRecord), t ∈ reg →
        ∃ e ∈ admin.handleListTunnelers now (some reg),
          e.id = t.id ∧ e.connectorID = t.connectorID ∧
          (e.status = str "ONLINE" ↔ now - t.lastSeen < 30 * second) ∧
          (e.status = str "OFFLINE" ↔ ¬ now - t.lastSeen < 30 * second)) ∧
    (∀ (now : Time) (reg : State.TunnelerStatusRegistry),
        (admin.handleListTunnelers now (some reg)).length = reg.length) := by
  refine ⟨?_, ?_, ?_, ?_⟩
  · intro now reg r hr
    refine ⟨_, List.mem_map_of_mem _ (mem_listRecords.mpr hr), rfl, rfl, rfl, ?_, ?_⟩
    · exact (status_string_iff (now - r.lastSeen < 30 * second)).1
    · exact (status_string_iff (now - r.lastSeen < 30 * second)).2
  · intro now reg
    unfold admin.handleListConnectors
    rw [List.length_map, length_listRecords]
  · intro now reg t ht
    refine ⟨_, List.mem_map_of_mem _ (mem_listTunnelers.mpr ht), rfl, rfl, ?_, ?_⟩
    · exact (status_string_iff (now - t.lastSeen < 30 * second)).1
    · exact (status_string_iff (now - t.lastSeen < 30 * second)).2
  · intro now reg
    unfold admin.handleListTunnelers
    rw [List.length_map, length_listTunnelers]

/-- Witness for `adminListing_online_threshold`: a registry with one
connector last seen 10 s ago (listed ONLINE) and one tunneler last seen
45 s ago (listed OFFLINE, still present: length 1). -/
theorem adminListing_online_threshold_witness :
    (∃ e ∈ admin.handleListConnectors (10 * second)
        [⟨str "c1", str "10.0.0.5", str "1.0", 0⟩],
      e.id = str "c1" ∧ e.privateIP = str "10.0.0.5" ∧ e.version = str "1.0" ∧
      (e.status = str "ONLINE" ↔ (10 * second : Int) - 0 < 30 * second) ∧
      (e.status = str "OFFLINE" ↔ ¬ (10 * second : Int) - 0 < 30 * second)) ∧
    (∃ e ∈ admin.handleListTunnelers (45 * second)
        (some [⟨str "t1", str "sid", str "c1", 0⟩]),
      e.id = str "t1" ∧ e.connectorID = str "c1" ∧
      (e.status = str "ONLINE" ↔ (45 * second : Int) - 0 < 30 * second) ∧
      (e.status = str "OFFLINE" ↔ ¬ (45 * second : Int) - 0 < 30 * second)) ∧
    (admin.handleListTunnelers (45 * second)
        (some [⟨str "t1", str "sid", str "c1", 0⟩])).length = 1 := by
  refine ⟨?_, ?_, ?_⟩
  · exact adminListing_online_threshold.1 (10 * second)
      [⟨str "c1", str "10.0.0.5", str "1.0", 0⟩]
      ⟨str "c1", str "10.0.0.5", str "1.0", 0⟩ (by simp)
  · exact adminListing_online_threshold.2.2.1 (45 * second)
      [⟨str "t1", str "sid", str "c1", 0⟩]
      ⟨str "t1", str "sid", str "c1", 0⟩ (by simp)
  · exact adminListing_online_threshold.2.2.2 (45 * second)
      [⟨str "t1", str "sid", str "c1", 0⟩]

/-- C9: recording a heartbeat for an existing connector record only
advances `last_seen`: the record keeps its `id` and `version`, and
keeps its `private_ip` whenever the heartbeat's ip is empty or
identical; records with other ids are untouched; and a repeated
identical heartbeat collapses to the last one (idempotence on
everything but `last_seen`). -/
theorem recordHeartbeat_frame :
    (∀ (now : Time) (reg : State.Registry) (id ip : Str)
        (r : State.ConnectorRecord), r ∈ reg → r.id = id →
        ∃ e ∈ State.RecordHeartbeat now reg id ip,
          e.id = r.id ∧ e.version = r.version ∧ e.lastSeen = now ∧
          ((ip = [] ∨ ip = r.privateIP) → e.privateIP = r.privateIP)) ∧
    (∀ (now : Time) (reg : State.Registry) (id ip : Str)
        (e : State.ConnectorRecord),
        e ∈ State.RecordHeartbeat now reg id ip → e.id ≠ id → e ∈ reg) ∧
    (∀ (now1 now2 : Time) (reg : State.Registry) (id ip : Str),
        State.RecordHeartbeat now2 (State.RecordHeartbeat now1 reg id ip) id ip =
          State.RecordHeartbeat now2 reg id ip) := by
  refine ⟨?_, ?_, ?_⟩
  · intro now reg id ip r hr hid
    have hany : (reg.any fun c => decide (c.id = id)) = true :=
      List.any_eq_true.mpr ⟨r, hr, by simp [hid]⟩
    unfold State.RecordHeartbeat
    rw [if_pos hany]
    refine ⟨{ r with privateIP := if ip ≠ [] then ip else r.privateIP, lastSeen := now },
      List.mem_map.mpr ⟨r, hr, by simp [hid]⟩, rfl, rfl, rfl, ?_⟩
    rintro (h | h)
    · simp [h]
    · by_cases he : ip = [] <;> simp [he, h]
  · intro now reg id ip e he hne
    unfold State.RecordHeartbeat at he
    by_cases hany : (reg.any fun c => decide (c.id = id)) = true
    · rw [if_pos hany] at he
      obtain ⟨c, hc, hce⟩ := List.mem_map.mp he
      by_cases hcid : c.id = id
      · exfalso
        apply hne
        rw [← hce]
        simp [hcid]
      · rw [if_neg hcid] at hce
        rw [← hce]
        exact hc
    · rw [if_neg hany] at he
      rcases List.mem_append.mp he with h | h
      · exact h
      · exfalso
        apply hne
        simp only [List.mem_singleton] at h
        rw [h]
  · intro now1 now2 reg id ip
    by_cases hany : (reg.any fun c => decide (c.id = id)) = true
    · have h1 : State.RecordHeartbeat now1 reg id ip =
          reg.map (fun c => if c.id = id then { c with privateIP := if ip ≠ [] then ip else c.privateIP, lastSeen := now1 } else c) := by
        unfold State.RecordHeartbeat
        rw [if_pos hany]
      have h2 : State.RecordHeartbeat now2 reg id ip =
          reg.map (fun c => if c.id = id then { c with privateIP := if ip ≠ [] then ip else c.privateIP, lastSeen := now2 } else c) := by
        unfold State.RecordHeartbeat
        rw [if_pos hany]
      rw [h1, h2]
      have hany2 : ((reg.map (fun c => if c.id = id then { c with privateIP := if ip ≠ [] then ip else c.privateIP, lastSeen := now1 } else c)).any
          fun c => decide (c.id = id)) = true := by
        obtain ⟨c, hc, hcd⟩ := List.any_eq_true.mp hany
        simp only [decide_eq_true_eq] at hcd
        exact List.any_eq_true.mpr ⟨_, List.mem_map.mpr ⟨c, hc, rfl⟩, by simp [hcd]⟩
      unfold State.RecordHeartbeat
      rw [if_pos hany2, List.map_map]
      refine List.map_congr_left ?_
      intro c _
      by_cases hcid : c.id = id
      · by_cases hip : ip = []
        · simp [Function.comp, hcid, hip]
        · simp [Function.comp, hcid, hip]
      · simp [Function.comp, hcid]
    · have h1 : State.RecordHeartbeat now1 reg id ip =
          reg ++ [{ id := id, privateIP := if ip ≠ [] then ip else [], version := [], lastSeen := now1 }] := by
        unfold State.RecordHeartbeat
        rw [if_neg hany]
      have h2 : State.RecordHeartbeat now2 reg id ip =
          reg ++ [{ id := id, privateIP := if ip ≠ [] then ip else [], version := [], lastSeen := now2 }] := by
        unfold State.RecordHeartbeat
        rw [if_neg hany]
      rw [h1, h2]
      have hany2 : ((reg ++ [({ id := id, privateIP := if ip ≠ [] then ip else [], version := [], lastSeen := now1 } : State.ConnectorRecord)]).any
          fun c => decide (c.id = id)) = true := by
        refine List.any_eq_true.mpr
          ⟨({ id := id, privateIP := if ip ≠ [] then ip else [], version := [], lastSeen := now1 } : State.ConnectorRecord),
            List.mem_append_right _ (List.mem_singleton.mpr rfl), by simp⟩
      unfold State.RecordHeartbeat
      rw [if_pos hany2, List.map_append]
      have hall := List.any_eq_false.mp (Bool.not_eq_true _ ▸ hany)
      have hmapreg : (reg.map (fun c => if c.id = id then { c with privateIP := if ip ≠ [] then ip else c.privateIP, lastSeen := now2 } else c)) = reg := by
        have hcongr : (reg.map (fun c => if c.id = id then { c with privateIP := if ip ≠ [] then ip else c.privateIP, lastSeen := now2 } else c)) = reg.map (fun c => c) := by
          refine List.map_congr_left ?_
          intro c hc
          have hcne : ¬ c.id = id := by
            have := hall c hc
            simpa using this
          simp [hcne]
        rw [hcongr, List.map_id']
      rw [hmapreg]
      congr 1
      by_cases hip : ip = []
      · simp [hip]
      · simp [hip]

/-- Witness for `recordHeartbeat_frame`: heartbeats against the
one-record registry for `"c1"`. -/
theorem recordHeartbeat_frame_witness :
    (∃ e ∈ State.RecordHeartbeat (20 * second)
        [⟨str "c1", str "10.0.0.5", str "1.0", 0⟩] (str "c1") [],
      e.id = str "c1" ∧ e.version = str "1.0" ∧ e.lastSeen = 20 * second ∧
      (([] = ([] : Str) ∨ ([] : Str) = str "10.0.0.5") →
        e.privateIP = str "10.0.0.5")) ∧
    (∀ e ∈ State.RecordHeartbeat (20 * second)
        [⟨str "c1", str "10.0.0.5", str "1.0", 0⟩] (str "c2") (str "ip"),
      e.id ≠ str "c2" → e ∈ [⟨str "c1", str "10.0.0.5", str "1.0", 0⟩]) ∧
    State.RecordHeartbeat (20 * second)
        (State.RecordHeartbeat (10 * second)
          [⟨str "c1", str "10.0.0.5", str "1.0", 0⟩] (str "c1") (str "10.0.0.5"))
        (str "c1") (str "10.0.0.5") =
      State.RecordHeartbeat (20 * second)
        [⟨str "c1", str "10.0.0.5", str "1.0", 0⟩] (str "c1") (str "10.0.0.5") := by
  refine ⟨?_, ?_, ?_⟩
  · exact recordHeartbeat_frame.1 (20 * second)
      [⟨str "c1", str "10.0.0.5", str "1.0", 0⟩] (str "c1") []
      ⟨str "c1", str "10.0.0.5", str "1.0", 0⟩ (by simp) (by rfl)
  · intro e he hne
    exact recordHeartbeat_frame.2.1 (20 * second)
      [⟨str "c1", str "10.0.0.5", str "1.0", 0⟩] (str "c2") (str "ip") e he hne
  · exact recordHeartbeat_frame.2.2 (10 * second) (20 * second)
      [⟨str "c1", str "10.0.0.5", str "1.0", 0⟩] (str "c1") (str "10.0.0.5")

/-- C4 counterexample: a peer certificate whose URI path is
`/connector/` (empty id segment) is NOT rejected — the interceptor
accepts it and the handler runs, even with the full role set
configured.  The code only counts the segments; it never checks them
for non-emptiness. -/
theorem interceptor_empty_segment_counterexample :
    api.UnarySPIFFEInterceptor (str "td")
        [str "connector", str "tunneler", str "controller"]
        (some ⟨some ⟨[emptyIdLeaf]⟩⟩) (fun s r => (s, r)) =
      .ok (str "spiffe://td/connector/", str "connector") := by rfl

/-- C4 amended: the interceptor rejects a peer unless the connection
carries peer info, is TLS, and presents at least one certificate whose
leaf has exactly one URI SAN with scheme `spiffe`, host equal to the
trust domain, and a path of exactly two `/`-separated segments (which
may be empty) whose first segment lies in the configured role set when
that set is non-empty.  Empty role or id segments are NOT rejected by
the two-segment check itself. -/
theorem interceptor_accept_characterization :
    (∀ (td : Str) (roles : List Str),
        isOk (api.extractAndVerifySPIFFE none td roles) = false) ∧
    (∀ (td : Str) (roles : List Str),
        isOk (api.extractAndVerifySPIFFE (some ⟨none⟩) td roles) = false) ∧
    (∀ (td : Str) (roles : List Str),
        isOk (api.extractAndVerifySPIFFE (some ⟨some ⟨[]⟩⟩) td roles) = false) ∧
    (∀ (td : Str) (roles : List Str) (cert : ca.Cert) (rest : List ca.Cert),
        isOk (api.extractAndVerifySPIFFE (some ⟨some ⟨cert :: rest⟩⟩) td roles) = true ↔
          ∃ uri, cert.uris = [uri] ∧ uri.scheme = str "spiffe" ∧ uri.host = td ∧
            (splitOnChar '/' (trimPre (str "/") uri.path)).length = 2 ∧
            (roles ≠ [] → (splitOnChar '/' (trimPre (str "/") uri.path)).headI ∈ roles)) := by
  refine ⟨fun td roles => rfl, fun td roles => rfl, fun td roles => rfl, ?_⟩
  intro td roles cert rest
  constructor
  · intro hOk
    simp only [api.extractAndVerifySPIFFE] at hOk
    split at hOk
    next uri heq =>
      split at hOk
      next h1 => simp [isOk] at hOk
      next h1 =>
        split at hOk
        next h2 => simp [isOk] at hOk
        next h2 =>
          split at hOk
          next h3 => simp [isOk] at hOk
          next h3 =>
            split at hOk
            next h4 => simp [isOk] at hOk
            next h4 =>
              exact ⟨uri, heq, not_not.mp h1, not_not.mp h2, not_not.mp h3,
                fun hne => not_not.mp (fun hmem => h4 ⟨hne, hmem⟩)⟩
    next h => simp [isOk] at hOk
  · rintro ⟨uri, huris, hscheme, hhost, hlen, hrole⟩
    simp only [api.extractAndVerifySPIFFE, huris]
    rw [if_neg (not_not_intro hscheme)]
    rw [if_neg (not_not_intro hhost)]
    rw [if_neg (not_not_intro hlen)]
    rw [if_neg (show ¬ (roles ≠ [] ∧
        (splitOnChar '/' (trimPre (str "/") uri.path)).headI ∉ roles) from
      fun h => h.2 (hrole h.1))]
    rfl

/-- Witness for `interceptor_accept_characterization`: a missing peer
is rejected, and the well-formed `spiffe://td/connector/c1` leaf is
accepted under the connector role set. -/
theorem interceptor_accept_characterization_witness :
    isOk (api.extractAndVerifySPIFFE none (str "td") []) = false ∧
    isOk (api.extractAndVerifySPIFFE (some ⟨some ⟨[goodLeaf]⟩⟩) (str "td")
      [str "connector"]) = true := by
  refine ⟨interceptor_accept_characterization.1 (str "td") [], ?_⟩
  refine (interceptor_accept_characterization.2.2.2 (str "td") [str "connector"]
    goodLeaf []).mpr ⟨⟨str "spiffe", str "td", str "/connector/c1"⟩, ?_, ?_, ?_, ?_, ?_⟩
  · rfl
  · rfl
  · rfl
  · decide
  · decide

/-- C2: `Renew` succeeds only when the context carries an authenticated
SPIFFE identity whose extracted id equals the request's id; with a
structurally valid request, a missing identity yields `Unauthenticated`
and an id mismatch yields `PermissionDenied` — both errors, so no
certificate is issued or returned. -/
theorem renew_requires_matching_identity :
    (∀ (parseIP : Str → Option IPAddr) (now : Time) (serial : Int)
        (s : api.EnrollmentServer) (ctx : api.Ctx) (req : api.EnrollRequest)
        (resp : api.EnrollResponse),
        api.Renew parseIP now serial s ctx req = .ok resp →
        ctx.spiffeID.isSome = true ∧ ctx.role.isSome = true ∧
        ∃ role, api.identityFromContext s.trustDomain ctx = .ok (role, req.id)) ∧
    (∀ (parseIP : Str → Option IPAddr) (now : Time) (serial : Int)
        (s : api.EnrollmentServer) (roleField : Option Str) (req : api.EnrollRequest),
        api.validID req.id = true → req.publicKey.isSome = true →
        api.Renew parseIP now serial s ⟨none, roleField⟩ req =
          .error ⟨.unauthenticated, str "missing SPIFFE identity"⟩) ∧
    (∀ (parseIP : Str → Option IPAddr) (now : Time) (serial : Int)
        (s : api.EnrollmentServer) (ctx : api.Ctx) (req : api.EnrollRequest)
        (role id : Str),
        api.validID req.id = true → req.publicKey.isSome = true →
        api.identityFromContext s.trustDomain ctx = .ok (role, id) →
        id ≠ req.id →
        api.Renew parseIP now serial s ctx req =
          .error ⟨.permissionDenied, str "id mismatch for renewal"⟩) := by
  refine ⟨?_, ?_, ?_⟩
  · intro parseIP now serial s ctx req resp h
    simp only [api.Renew] at h
    split at h
    · exact absurd h (by simp)
    · split at h
      next e hpk => exact absurd h (by simp)
      next pk hpk =>
        split at h
        next e hidc => exact absurd h (by simp)
        next role id hidc =>
          split at h
          · exact absurd h (by simp)
          next hid =>
            have hid' : id = req.id := not_not.mp hid
            have hsp : ctx.spiffeID.isSome = true := by
              simp only [api.identityFromContext] at hidc
              cases hcs : ctx.spiffeID with
              | none => rw [hcs] at hidc; exact absurd hidc (by simp)
              | some v => rfl
            have hro : ctx.role.isSome = true := by
              simp only [api.identityFromContext] at hidc
              cases hcs : ctx.spiffeID with
              | none => rw [hcs] at hidc; exact absurd hidc (by simp)
              | some v =>
                  rw [hcs] at hidc
                  cases hcr : ctx.role with
                  | none => rw [hcr] at hidc; exact absurd hidc (by simp)
                  | some w => rfl
            exact ⟨hsp, hro, role, hid' ▸ hidc⟩
  · intro parseIP now serial s roleField req hval hpk
    obtain ⟨pk, hpk'⟩ := Option.isSome_iff_exists.mp hpk
    simp only [api.Renew, api.parsePublicKey, hpk']
    rw [if_neg (by simp [hval])]
    rfl
  · intro parseIP now serial s ctx req role id hval hpk hidc hne
    obtain ⟨pk, hpk'⟩ := Option.isSome_iff_exists.mp hpk
    simp only [api.Renew, api.parsePublicKey, hpk', hidc]
    rw [if_neg (by simp [hval])]
    rw [if_pos hne]

/-- Witness for `renew_requires_matching_identity`: a successful
renewal for `c1` (the context identity matches), a renewal with no
peer identity (Unauthenticated), and a cross-renewal attempt where the
peer is `c1` but the request says `c2` (PermissionDenied). -/
theorem renew_requires_matching_identity_witness :
    ((⟨some (mkSpiffeID (str "td") (str "connector") (str "c1")),
        some (str "connector")⟩ : api.Ctx).spiffeID.isSome = true ∧
      (⟨some (mkSpiffeID (str "td") (str "connector") (str "c1")),
        some (str "connector")⟩ : api.Ctx).role.isSome = true ∧
      ∃ role, api.identityFromContext (str "td")
          ⟨some (mkSpiffeID (str "td") (str "connector") (str "c1")),
            some (str "connector")⟩ =
        .ok (role, str "c1")) ∧
    api.Renew (fun _ => none) 0 7
        ⟨true, str "CA", str "td", none, none⟩ ⟨none, some (str "connector")⟩
        ⟨str "c1", some ⟨0⟩, [], [], []⟩ =
      .error ⟨.unauthenticated, str "missing SPIFFE identity"⟩ ∧
    api.Renew (fun _ => none) 0 7
        ⟨true, str "CA", str "td", none, none⟩
        ⟨some (mkSpiffeID (str "td") (str "connector") (str "c1")),
          some (str "connector")⟩
        ⟨str "c2", some ⟨0⟩, [], [], []⟩ =
      .error ⟨.permissionDenied, str "id mismatch for renewal"⟩ := by
  refine ⟨?_, ?_, ?_⟩
  · exact renew_requires_matching_identity.1 (fun _ => none) 0 7
      ⟨true, str "CA", str "td", none, none⟩
      ⟨some (mkSpiffeID (str "td") (str "connector") (str "c1")),
        some (str "connector")⟩
      ⟨str "c1", some ⟨0⟩, [], [], []⟩
      ⟨⟨str "CERTIFICATE",
        ⟨7, 0 - minute, 0 + 5 * minute, true, false, [.clientAuth, .serverAuth],
          true, false, [⟨str "spiffe", str "td", str "/connector/c1"⟩], [], [], ⟨0⟩⟩⟩,
        str "CA"⟩
      (by rfl)
  · exact renew_requires_matching_identity.2.1 (fun _ => none) 0 7
      ⟨true, str "CA", str "td", none, none⟩ (some (str "connector"))
      ⟨str "c1", some ⟨0⟩, [], [], []⟩ (by decide) (by rfl)
  · exact renew_requires_matching_identity.2.2 (fun _ => none) 0 7
      ⟨true, str "CA", str "td", none, none⟩
      ⟨some (mkSpiffeID (str "td") (str "connector") (str "c1")),
        some (str "connector")⟩
      ⟨str "c2", some ⟨0⟩, [], [], []⟩ (str "connector") (str "c1")
      (by decide) (by rfl) (by rfl) (by decide)

theorem urlParse_mkSpiffeID_scheme (td role id : Str) :
    (urlParse (mkSpiffeID td role id)).scheme = str "spiffe" := by
  have h1 : mkSpiffeID td role id =
      str "spiffe" ++ ':' :: ('/' :: '/' :: (td ++ '/' :: (role ++ '/' :: id))) := by
    simp [mkSpiffeID, str]
  have h3 := @splitFirst_append ':' (str "spiffe")
      ('/' :: '/' :: (td ++ '/' :: (role ++ '/' :: id)))
      (by decide : (':' : Char) ∉ str "spiffe")
  rw [h1]
  unfold urlParse
  rw [h3]
  cases h : splitFirst '/' (td ++ '/' :: (role ++ '/' :: id)) with
  | none => simp [h, str]
  | some p =>
      obtain ⟨a, b⟩ := p
      simp [h, str]

theorem IssueWorkloadCert_ok_of_scheme {spiffeID : Str}
    (hsch : (urlParse spiffeID).scheme = str "spiffe") {ttl : Duration}
    (httl : 0 < ttl) (pk : PubKey) (dns : List Str) (ips : List IPAddr)
    (now : Time) (serial : Int) :
    ca.IssueWorkloadCert true spiffeID pk ttl dns ips now serial =
      .ok ⟨str "CERTIFICATE",
        ⟨serial, now - minute, now + ttl, true, false,
          [.clientAuth, .serverAuth], true, false, [urlParse spiffeID],
          dns, ips, pk⟩⟩ := by
  simp only [ca.IssueWorkloadCert]
  rw [if_neg (by simp)]
  rw [if_neg (not_le.mpr httl)]
  rw [if_neg (not_not_intro hsch)]

/-- C6: with a structurally valid request and a consumable token, a
non-empty `private_ip` that fails to parse still enrolls successfully
and the leaf carries no IP SAN; a parsing `private_ip` yields exactly
that one IP SAN; and an empty `private_ip` or empty `version` is an
`InvalidArgument` failure. -/
theorem enrollConnector_private_ip :
    (∀ (hashToken : Str → Str) (parseIP : Str → Option IPAddr) (now : Time)
        (serial : Int) (s : api.EnrollmentServer) (req : api.EnrollRequest)
        (pk : PubKey) (ts ts2 : State.TokenStore),
        api.validID req.id = true → req.privateIp ≠ [] → req.version ≠ [] →
        req.publicKey = some pk → s.tokens = some ts → s.caOk = true →
        State.ConsumeToken hashToken now ts req.token req.id = .ok ts2 →
        parseIP req.privateIp = none →
        ∃ resp s2, api.EnrollConnector hashToken parseIP now serial s req =
            .ok (resp, s2) ∧ resp.certificate.cert.ipAddresses = []) ∧
    (∀ (hashToken : Str → Str) (parseIP : Str → Option IPAddr) (now : Time)
        (serial : Int) (s : api.EnrollmentServer) (req : api.EnrollRequest)
        (pk : PubKey) (ts ts2 : State.TokenStore) (a : IPAddr),
        api.validID req.id = true → req.privateIp ≠ [] → req.version ≠ [] →
        req.publicKey = some pk → s.tokens = some ts → s.caOk = true →
        State.ConsumeToken hashToken now ts req.token req.id = .ok ts2 →
        parseIP req.privateIp = some a →
        ∃ resp s2, api.EnrollConnector hashToken parseIP now serial s req =
            .ok (resp, s2) ∧ resp.certificate.cert.ipAddresses = [a]) ∧
    (∀ (hashToken : Str → Str) (parseIP : Str → Option IPAddr) (now : Time)
        (serial : Int) (s : api.EnrollmentServer) (req : api.EnrollRequest),
        req.privateIp = [] →
        ∃ m, api.EnrollConnector hashToken parseIP now serial s req =
          .error ⟨.invalidArgument, m⟩) ∧
    (∀ (hashToken : Str → Str) (parseIP : Str → Option IPAddr) (now : Time)
        (serial : Int) (s : api.EnrollmentServer) (req : api.EnrollRequest),
        req.version = [] →
        ∃ m, api.EnrollConnector hashToken parseIP now serial s req =
          .error ⟨.invalidArgument, m⟩) := by
  refine ⟨?_, ?_, ?_, ?_⟩
  · intro hashToken parseIP now serial s req pk ts ts2 hval hpriv hver hpk hts hca
      hcons hip
    simp only [api.EnrollConnector, api.parsePublicKey,
      api.authorizeConnectorToken, hpk, hts, hcons, hip]
    rw [if_neg (by simp [hval]), if_neg hpriv, if_neg hver, hca,
      IssueWorkloadCert_ok_of_scheme
        (urlParse_mkSpiffeID_scheme s.trustDomain (str "connector") req.id)
        (by norm_num [minute, second]) pk [] [] now serial]
    exact ⟨_, _, rfl, rfl⟩
  · intro hashToken parseIP now serial s req pk ts ts2 a hval hpriv hver hpk hts hca
      hcons hip
    simp only [api.EnrollConnector, api.parsePublicKey,
      api.authorizeConnectorToken, hpk, hts, hcons, hip]
    rw [if_neg (by simp [hval]), if_neg hpriv, if_neg hver, hca,
      IssueWorkloadCert_ok_of_scheme
        (urlParse_mkSpiffeID_scheme s.trustDomain (str "connector") req.id)
        (by norm_num [minute, second]) pk [] [a] now serial]
    exact ⟨_, _, rfl, rfl⟩
  · intro hashToken parseIP now serial s req hpriv
    simp only [api.EnrollConnector, hpriv]
    by_cases hval : api.validID req.id = false
    · rw [if_pos hval]
      exact ⟨_, rfl⟩
    · rw [if_neg hval]
      rw [if_pos trivial]
      exact ⟨_, rfl⟩
  · intro hashToken parseIP now serial s req hver
    simp only [api.EnrollConnector, hver]
    by_cases hval : api.validID req.id = false
    · rw [if_pos hval]
      exact ⟨_, rfl⟩
    · rw [if_neg hval]
      by_cases hpriv : req.privateIp = []
      · rw [if_pos hpriv]
        exact ⟨_, rfl⟩
      · rw [if_neg hpriv, if_pos trivial]
        exact ⟨_, rfl⟩

/-- Witness for `enrollConnector_private_ip` at the bootstrap inputs:
`id = "c1"`, a fresh 600 s token, `version = "1.0"`; `"not-an-ip"`
yields a leaf without IP SANs, `"10.0.0.5"` yields exactly that SAN,
and an empty `private_ip` or `version` is InvalidArgument. -/
theorem enrollConnector_private_ip_witness :
    (∃ resp s2, api.EnrollConnector idHash (fun _ => none) (1 * second) 7
        ⟨true, str "CA", str "td", some wbStore1, some []⟩
        ⟨str "c1", some ⟨0⟩, str "tok", str "not-an-ip", str "1.0"⟩ =
          .ok (resp, s2) ∧ resp.certificate.cert.ipAddresses = []) ∧
    (∃ resp s2, api.EnrollConnector idHash
        (fun v => if v = str "10.0.0.5" then some [10, 0, 0, 5] else none)
        (1 * second) 7
        ⟨true, str "CA", str "td", some wbStore1, some []⟩
        ⟨str "c1", some ⟨0⟩, str "tok", str "10.0.0.5", str "1.0"⟩ =
          .ok (resp, s2) ∧ resp.certificate.cert.ipAddresses = [[10, 0, 0, 5]]) ∧
    (∃ m, api.EnrollConnector idHash (fun _ => none) (1 * second) 7
        ⟨true, str "CA", str "td", some wbStore1, some []⟩
        ⟨str "c1", some ⟨0⟩, str "tok", [], str "1.0"⟩ =
          .error ⟨.invalidArgument, m⟩) ∧
    (∃ m, api.EnrollConnector idHash (fun _ => none) (1 * second) 7
        ⟨true, str "CA", str "td", some wbStore1, some []⟩
        ⟨str "c1", some ⟨0⟩, str "tok", str "10.0.0.5", []⟩ =
          .error ⟨.invalidArgument, m⟩) := by
  refine ⟨?_, ?_, ?_, ?_⟩
  · exact enrollConnector_private_ip.1 idHash (fun _ => none) (1 * second) 7
      ⟨true, str "CA", str "td", some wbStore1, some []⟩
      ⟨str "c1", some ⟨0⟩, str "tok", str "not-an-ip", str "1.0"⟩ ⟨0⟩ wbStore1
      ⟨[(str "tok", ⟨str "tok", 600 * second, false, str "c1"⟩)], 600 * second⟩
      (by decide) (by decide) (by decide) (by rfl) (by rfl) (by rfl) (by rfl)
      (by rfl)
  · exact enrollConnector_private_ip.2.1 idHash
      (fun v => if v = str "10.0.0.5" then some [10, 0, 0, 5] else none)
      (1 * second) 7
      ⟨true, str "CA", str "td", some wbStore1, some []⟩
      ⟨str "c1", some ⟨0⟩, str "tok", str "10.0.0.5", str "1.0"⟩ ⟨0⟩ wbStore1
      ⟨[(str "tok", ⟨str "tok", 600 * second, false, str "c1"⟩)], 600 * second⟩
      [10, 0, 0, 5]
      (by decide) (by decide) (by decide) (by rfl) (by rfl) (by rfl) (by rfl)
      (by rfl)
  · exact enrollConnector_private_ip.2.2.1 idHash (fun _ => none) (1 * second) 7
      ⟨true, str "CA", str "td", some wbStore1, some []⟩
      ⟨str "c1", some ⟨0⟩, str "tok", [], str "1.0"⟩ (by rfl)
  · exact enrollConnector_private_ip.2.2.2 idHash (fun _ => none) (1 * second) 7
      ⟨true, str "CA", str "td", some wbStore1, some []⟩
      ⟨str "c1", some ⟨0⟩, str "tok", str "10.0.0.5", []⟩ (by rfl)

theorem identityFromContext_ok {td : Str} {ctx : api.Ctx} {role id : Str}
    (h : api.identityFromContext td ctx = .ok (role, id)) :
    ctx.role = some role := by
  simp only [api.identityFromContext] at h
  split at h
  · exact absurd h (by simp)
  next v hv =>
    split at h
    · exact absurd h (by simp)
    next w hw =>
      split at h
      · exact absurd h (by simp)
      · rw [Except.ok.injEq, Prod.mk.injEq] at h
        rw [hw, h.1]

theorem enrollConnector_ok_shape
    (hashToken : Str → Str) (parseIP : Str → Option IPAddr) (now : Time)
    (serial : Int) (s : api.EnrollmentServer) (req : api.EnrollRequest)
    (resp : api.EnrollResponse) (s2 : api.EnrollmentServer)
    (htd : '/' ∉ s.trustDomain)
    (h : api.EnrollConnector hashToken parseIP now serial s req = .ok (resp, s2)) :
    api.validID req.id = true ∧
    ∃ pk, resp.certificate =
      ⟨str "CERTIFICATE",
        ⟨serial, now - minute, now + 5 * minute, true, false,
          [.clientAuth, .serverAuth], true, false,
          [⟨str "spiffe", s.trustDomain, str "/" ++ str "connector" ++ str "/" ++ req.id⟩],
          [], (match parseIP req.privateIp with | some ip => [ip] | none => []), pk⟩⟩ := by
  simp only [api.EnrollConnector] at h
  split at h
  next hval => exact absurd h (by simp)
  next hval =>
    have hvalT : api.validID req.id = true := by
      cases hb : api.validID req.id
      · exact absurd hb hval
      · rfl
    split at h
    · exact absurd h (by simp)
    split at h
    · exact absurd h (by simp)
    split at h
    · exact absurd h (by simp)
    next pk hpk =>
      split at h
      · exact absurd h (by simp)
      next ts2 hcons =>
        split at h
        · exact absurd h (by simp)
        next certPEM hiss =>
          cases hca : s.caOk
          · rw [hca] at hiss
            simp [ca.IssueWorkloadCert] at hiss
          · rw [hca] at hiss
            rw [IssueWorkloadCert_mkSpiffeID (str "connector") req.id pk
              (5 * minute) [] _ now serial htd
              (by norm_num [minute, second])] at hiss
            rw [Except.ok.injEq] at hiss
            rw [Except.ok.injEq, Prod.mk.injEq] at h
            refine ⟨hvalT, pk, ?_⟩
            rw [← h.1, ← hiss]

theorem enrollTunneler_ok_shape
    (hashToken : Str → Str) (now : Time) (serial : Int)
    (s : api.EnrollmentServer) (req : api.EnrollRequest)
    (resp : api.EnrollResponse) (s2 : api.EnrollmentServer)
    (htd : '/' ∉ s.trustDomain)
    (h : api.EnrollTunneler hashToken now serial s req = .ok (resp, s2)) :
    api.validID req.id = true ∧
    ∃ pk, resp.certificate =
      ⟨str "CERTIFICATE",
        ⟨serial, now - minute, now + 30 * minute, true, false,
          [.clientAuth, .serverAuth], true, false,
          [⟨str "spiffe", s.trustDomain, str "/" ++ str "tunneler" ++ str "/" ++ req.id⟩],
          [], [], pk⟩⟩ := by
  simp only [api.EnrollTunneler] at h
  split at h
  next hval => exact absurd h (by simp)
  next hval =>
    have hvalT : api.validID req.id = true := by
      cases hb : api.validID req.id
      · exact absurd hb hval
      · rfl
    split at h
    · exact absurd h (by simp)
    split at h
    · exact absurd h (by simp)
    next pk hpk =>
      split at h
      · exact absurd h (by simp)
      next ts2 hcons =>
        split at h
        · exact absurd h (by simp)
        next certPEM hiss =>
          cases hca : s.caOk
          · rw [hca] at hiss
            simp [ca.IssueWorkloadCert] at hiss
          · rw [hca] at hiss
            rw [IssueWorkloadCert_mkSpiffeID (str "tunneler") req.id pk
              (30 * minute) [] [] now serial htd
              (by norm_num [minute, second])] at hiss
            rw [Except.ok.injEq] at hiss
            rw [Except.ok.injEq, Prod.mk.injEq] at h
            refine ⟨hvalT, pk, ?_⟩
            rw [← h.1, ← hiss]

theorem renew_ok_shape
    (parseIP : Str → Option IPAddr) (now : Time) (serial : Int)
    (s : api.EnrollmentServer) (ctx : api.Ctx) (req : api.EnrollRequest)
    (resp : api.EnrollResponse)
    (htd : '/' ∉ s.trustDomain)
    (hroles : ∀ role, ctx.role = some role → '/' ∉ role)
    (h : api.Renew parseIP now serial s ctx req = .ok resp) :
    api.validID req.id = true ∧
    ∃ role pk ips, ctx.role = some role ∧
      resp.certificate =
        ⟨str "CERTIFICATE",
          ⟨serial, now - minute,
            now + (if role = str "connector" then 5 * minute else 30 * minute),
            true, false, [.clientAuth, .serverAuth], true, false,
            [⟨str "spiffe", s.trustDomain, str "/" ++ role ++ str "/" ++ req.id⟩],
            [], ips, pk⟩⟩ := by
  simp only [api.Renew] at h
  split at h
  next hval => exact absurd h (by simp)
  next hval =>
    have hvalT : api.validID req.id = true := by
      cases hb : api.validID req.id
      · exact absurd hb hval
      · rfl
    split at h
    · exact absurd h (by simp)
    next pk hpk =>
      split at h
      · exact absurd h (by simp)
      next role id hidc =>
        split at h
        · exact absurd h (by simp)
        next hne =>
          split at h
          · exact absurd h (by simp)
          next certPEM hiss =>
            have hrole : ctx.role = some role := identityFromContext_ok hidc
            have hrs : '/' ∉ role := hroles role hrole
            have httl : 0 < (if role = str "connector" then 5 * minute
                else 30 * minute) := by
              by_cases hr : role = str "connector" <;>
                simp [hr] <;> norm_num [minute, second]
            cases hca : s.caOk
            · rw [hca] at hiss
              simp [ca.IssueWorkloadCert] at hiss
            · rw [hca] at hiss
              rw [IssueWorkloadCert_mkSpiffeID role req.id pk _ [] _ now serial
                htd httl] at hiss
              rw [Except.ok.injEq] at hiss
              rw [Except.ok.injEq] at h
              exact ⟨hvalT, role, pk, _, hrole, by rw [← h, ← hiss]⟩

/-- C3: every leaf issued through the enrollment endpoints has exactly
one URI SAN with scheme `spiffe`, host equal to the configured trust
domain, and a two-segment path `[role, id]`; it is not a CA; its
NotBefore is one minute before issuance and its NotAfter is issuance
plus the TTL used (5 minutes for connectors, 30 for tunnelers,
role-dependent on renewal); and issuance fails outright for any
non-positive TTL.  The trust domain is assumed slash-free (a bare
DNS-like name) and, for renewal, the context role is a path segment and
hence slash-free. -/
theorem issuedLeaf_invariants :
    (∀ (caOk : Bool) (spiffeID : Str) (pk : PubKey) (ttl : Duration)
        (dns : List Str) (ips : List IPAddr) (now : Time) (serial : Int),
        ttl ≤ 0 →
        isOk (ca.IssueWorkloadCert caOk spiffeID pk ttl dns ips now serial) = false) ∧
    (∀ (hashToken : Str → Str) (parseIP : Str → Option IPAddr) (now : Time)
        (serial : Int) (s : api.EnrollmentServer) (req : api.EnrollRequest)
        (resp : api.EnrollResponse) (s2 : api.EnrollmentServer),
        '/' ∉ s.trustDomain →
        api.EnrollConnector hashToken parseIP now serial s req = .ok (resp, s2) →
        ∃ u, resp.certificate.cert.uris = [u] ∧ u.scheme = str "spiffe" ∧
          u.host = s.trustDomain ∧
          splitOnChar '/' (trimPre (str "/") u.path) = [str "connector", req.id] ∧
          resp.certificate.cert.isCA = false ∧
          resp.certificate.cert.notBefore = now - minute ∧
          resp.certificate.cert.notAfter = now + 5 * minute) ∧
    (∀ (hashToken : Str → Str) (now : Time) (serial : Int)
        (s : api.EnrollmentServer) (req : api.EnrollRequest)
        (resp : api.EnrollResponse) (s2 : api.EnrollmentServer),
        '/' ∉ s.trustDomain →
        api.EnrollTunneler hashToken now serial s req = .ok (resp, s2) →
        ∃ u, resp.certificate.cert.uris = [u] ∧ u.scheme = str "spiffe" ∧
          u.host = s.trustDomain ∧
          splitOnChar '/' (trimPre (str "/") u.path) = [str "tunneler", req.id] ∧
          resp.certificate.cert.isCA = false ∧
          resp.certificate.cert.notBefore = now - minute ∧
          resp.certificate.cert.notAfter = now + 30 * minute) ∧
    (∀ (parseIP : Str → Option IPAddr) (now : Time) (serial : Int)
        (s : api.EnrollmentServer) (ctx : api.Ctx) (req : api.EnrollRequest)
        (resp : api.EnrollResponse),
        '/' ∉ s.trustDomain →
        (∀ role, ctx.role = some role → '/' ∉ role) →
        api.Renew parseIP now serial s ctx req = .ok resp →
        ∃ u role, ctx.role = some role ∧
          resp.certificate.cert.uris = [u] ∧ u.scheme = str "spiffe" ∧
          u.host = s.trustDomain ∧
          splitOnChar '/' (trimPre (str "/") u.path) = [role, req.id] ∧
          resp.certificate.cert.isCA = false ∧
          resp.certificate.cert.notBefore = now - minute ∧
          resp.certificate.cert.notAfter =
            now + (if role = str "connector" then 5 * minute else 30 * minute)) := by
  refine ⟨?_, ?_, ?_, ?_⟩
  · intro caOk spiffeID pk ttl dns ips now serial httl
    cases caOk
    · rfl
    · simp only [ca.IssueWorkloadCert]
      rw [if_neg (by simp), if_pos httl]
      rfl
  · intro hashToken parseIP now serial s req resp s2 htd h
    obtain ⟨hval, pk, hcert⟩ :=
      enrollConnector_ok_shape hashToken parseIP now serial s req resp s2 htd h
    refine ⟨⟨str "spiffe", s.trustDomain,
      str "/" ++ str "connector" ++ str "/" ++ req.id⟩, ?_, rfl, rfl, ?_, ?_, ?_, ?_⟩
    · rw [hcert]
    · exact segments_two (by decide) (validID_no_slash hval)
    · rw [hcert]
    · rw [hcert]
    · rw [hcert]
  · intro hashToken now serial s req resp s2 htd h
    obtain ⟨hval, pk, hcert⟩ :=
      enrollTunneler_ok_shape hashToken now serial s req resp s2 htd h
    refine ⟨⟨str "spiffe", s.trustDomain,
      str "/" ++ str "tunneler" ++ str "/" ++ req.id⟩, ?_, rfl, rfl, ?_, ?_, ?_, ?_⟩
    · rw [hcert]
    · exact segments_two (by decide) (validID_no_slash hval)
    · rw [hcert]
    · rw [hcert]
    · rw [hcert]
  · intro parseIP now serial s ctx req resp htd hroles h
    obtain ⟨hval, role, pk, ips, hrole, hcert⟩ :=
      renew_ok_shape parseIP now serial s ctx req resp htd hroles h
    refine ⟨⟨str "spiffe", s.trustDomain, str "/" ++ role ++ str "/" ++ req.id⟩,
      role, hrole, ?_, rfl, rfl, ?_, ?_, ?_, ?_⟩
    · rw [hcert]
    · exact segments_two (hroles role hrole) (validID_no_slash hval)
    · rw [hcert]
    · rw [hcert]
    · rw [hcert]

/-- Witness for `issuedLeaf_invariants`: a zero TTL fails issuance, and
the concrete bootstrap enrollments and renewal for `c1`/`t1` under
trust domain `td` produce leaves with the claimed shape. -/
theorem issuedLeaf_invariants_witness :
    isOk (ca.IssueWorkloadCert true (str "spiffe://td/connector/c1") ⟨0⟩ 0 [] []
      0 7) = false ∧
    (∃ u, (⟨str "CERTIFICATE",
        ⟨7, 0 - minute, 0 + 5 * minute, true, false, [.clientAuth, .serverAuth],
          true, false, [⟨str "spiffe", str "td", str "/connector/c1"⟩], [], [],
          ⟨0⟩⟩⟩ : ca.PEMBlock).cert.uris = [u] ∧ u.scheme = str "spiffe" ∧
      u.host = str "td" ∧
      splitOnChar '/' (trimPre (str "/") u.path) = [str "connector", str "c1"] ∧
      (⟨str "CERTIFICATE",
        ⟨7, 0 - minute, 0 + 5 * minute, true, false, [.clientAuth, .serverAuth],
          true, false, [⟨str "spiffe", str "td", str "/connector/c1"⟩], [], [],
          ⟨0⟩⟩⟩ : ca.PEMBlock).cert.isCA = false ∧
      (⟨str "CERTIFICATE",
        ⟨7, 0 - minute, 0 + 5 * minute, true, false, [.clientAuth, .serverAuth],
          true, false, [⟨str "spiffe", str "td", str "/connector/c1"⟩], [], [],
          ⟨0⟩⟩⟩ : ca.PEMBlock).cert.notBefore = 0 - minute ∧
      (⟨str "CERTIFICATE",
        ⟨7, 0 - minute, 0 + 5 * minute, true, false, [.clientAuth, .serverAuth],
          true, false, [⟨str "spiffe", str "td", str "/connector/c1"⟩], [], [],
          ⟨0⟩⟩⟩ : ca.PEMBlock).cert.notAfter = 0 + 5 * minute) := by
  constructor
  · exact issuedLeaf_invariants.1 true (str "spiffe://td/connector/c1") ⟨0⟩ 0 [] []
      0 7 (by norm_num)
  · have h := issuedLeaf_invariants.2.1 idHash (fun _ => none) 0 7
      ⟨true, str "CA", str "td", some wbStore1, some []⟩
      ⟨str "c1", some ⟨0⟩, str "tok", str "10.0.0.5", str "1.0"⟩
      ⟨⟨str "CERTIFICATE",
        ⟨7, 0 - minute, 0 + 5 * minute, true, false, [.clientAuth, .serverAuth],
          true, false, [⟨str "spiffe", str "td", str "/connector/c1"⟩], [], [],
          ⟨0⟩⟩⟩, str "CA"⟩
      ⟨true, str "CA", str "td",
        some ⟨[(str "tok", ⟨str "tok", 600 * second, false, str "c1"⟩)],
          600 * second⟩,
        some [⟨str "c1", str "10.0.0.5", str "1.0", 0⟩]⟩
      (by decide) (by rfl)
    exact h

theorem render_mkSpiffeID (td role id : Str) :
    URL.render ⟨str "spiffe", td, str "/" ++ role ++ str "/" ++ id⟩ =
      mkSpiffeID td role id := by
  simp [URL.render, mkSpiffeID, str]

/-- C8: a successful `EnrollConnector(id, pk, tok, ip, v)` under trust
domain `td` returns a certificate PEM that parses into a leaf whose
single URI SAN renders exactly as `spiffe://td/connector/id`, and whose
IP SANs contain `ip` whenever `ip` parses as an address. -/
theorem enrollConnector_roundTrip :
    ∀ (hashToken : Str → Str) (parseIP : Str → Option IPAddr) (now : Time)
        (serial : Int) (s : api.EnrollmentServer) (req : api.EnrollRequest)
        (resp : api.EnrollResponse) (s2 : api.EnrollmentServer),
      '/' ∉ s.trustDomain →
      api.EnrollConnector hashToken parseIP now serial s req = .ok (resp, s2) →
      ∃ c, parseLeafCert resp.certificate = .ok c ∧
        ∃ u, c.uris = [u] ∧
          u.render = mkSpiffeID s.trustDomain (str "connector") req.id ∧
          ∀ a, parseIP req.privateIp = some a → a ∈ c.ipAddresses := by
  intro hashToken parseIP now serial s req resp s2 htd h
  obtain ⟨hval, pk, hcert⟩ :=
    enrollConnector_ok_shape hashToken parseIP now serial s req resp s2 htd h
  refine ⟨resp.certificate.cert, ?_,
    ⟨str "spiffe", s.trustDomain, str "/" ++ str "connector" ++ str "/" ++ req.id⟩,
    ?_, ?_, ?_⟩
  · rw [hcert]
    rfl
  · rw [hcert]
  · exact render_mkSpiffeID s.trustDomain (str "connector") req.id
  · intro a ha
    rw [hcert]
    simp [ha]

/-- Witness for `enrollConnector_roundTrip` at the bootstrap input
(`id = "c1"`, `ip = "10.0.0.5"`, trust domain `td`). -/
theorem enrollConnector_roundTrip_witness :
    ∃ c, parseLeafCert ⟨str "CERTIFICATE",
        ⟨7, 0 - minute, 0 + 5 * minute, true, false, [.clientAuth, .serverAuth],
          true, false, [⟨str "spiffe", str "td", str "/connector/c1"⟩], [],
          [[10, 0, 0, 5]], ⟨0⟩⟩⟩ = .ok c ∧
      ∃ u, c.uris = [u] ∧
        u.render = mkSpiffeID (str "td") (str "connector") (str "c1") ∧
        ∀ a, (fun v => if v = str "10.0.0.5" then some [10, 0, 0, 5] else none)
            (str "10.0.0.5") = some a → a ∈ c.ipAddresses := by
  exact enrollConnector_roundTrip idHash
    (fun v => if v = str "10.0.0.5" then some [10, 0, 0, 5] else none) 0 7
    ⟨true, str "CA", str "td", some wbStore1, some []⟩
    ⟨str "c1", some ⟨0⟩, str "tok", str "10.0.0.5", str "1.0"⟩
    ⟨⟨str "CERTIFICATE",
      ⟨7, 0 - minute, 0 + 5 * minute, true, false, [.clientAuth, .serverAuth],
        true, false, [⟨str "spiffe", str "td", str "/connector/c1"⟩], [],
        [[10, 0, 0, 5]], ⟨0⟩⟩⟩, str "CA"⟩
    ⟨true, str "CA", str "td",
      some ⟨[(str "tok", ⟨str "tok", 600 * second, false, str "c1"⟩)], 600 * second⟩,
      some [⟨str "c1", str "10.0.0.5", str "1.0", 0⟩]⟩
    (by decide) (by rfl)

end GrpcController

